import Mathlib

/-!
Verification development for the s-zip streaming ZIP archiver.

The Rust sources under scrutiny are shallowly embedded below:

* byte-level primitives (little-endian integer I/O, CRC-32) mirror
  `crc32fast` and the hand-rolled `to_le_bytes` calls of the writer;
* `src/writer.rs` (`StreamingZipWriter`) becomes an explicit state machine
  over `WriterState`, with every emitted byte accounted for;
* `src/reader.rs` (`StreamingZipReader`) becomes a cursor-passing parser
  over a `List Nat` byte file;
* `src/encryption.rs` (`AesEncryptor` / `AesDecryptor`) is embedded on top
  of executable SHA-1 / HMAC-SHA1 / PBKDF2 / AES-256-CTR implementations.

The DEFLATE/Zstd codecs are third-party crates that the specification treats
as opaque byte-in/byte-out stream compressors; they are modelled by the
`Codec` structure, and theorems that need their correctness take the
round-trip law as an explicit hypothesis.  Streaming compression is modelled
extensionally: the encoder accumulates its input and the compressed bytes
reach the sink at entry finalisation (the buffer flush thresholds of the
source change only when bytes move, never which bytes are produced).
-/

namespace SZip

/-! ## Little-endian byte encodings -/

/-- Two-byte little-endian encoding, as produced by `u16::to_le_bytes`. -/
def le16 (x : Nat) : List Nat := [x % 256, x / 256 % 256]

/-- Four-byte little-endian encoding, as produced by `u32::to_le_bytes`. -/
def le32 (x : Nat) : List Nat :=
  [x % 256, x / 256 % 256, x / 65536 % 256, x / 16777216 % 256]

/-- Eight-byte little-endian encoding, as produced by `u64::to_le_bytes`. -/
def le64 (x : Nat) : List Nat :=
  [x % 256, x / 256 % 256, x / 65536 % 256, x / 16777216 % 256,
   x / 4294967296 % 256, x / 1099511627776 % 256,
   x / 281474976710656 % 256, x / 72057594037927936 % 256]

/-- Little-endian decoding of a byte list (`u16::from_le_bytes` and friends). -/
def leDec (bs : List Nat) : Nat := bs.foldr (fun b acc => b + 256 * acc) 0

theorem le16_length (x : Nat) : (le16 x).length = 2 := rfl

theorem le32_length (x : Nat) : (le32 x).length = 4 := rfl

theorem le64_length (x : Nat) : (le64 x).length = 8 := rfl

theorem leDec_le16 (x : Nat) : leDec (le16 x) = x % 65536 := by
  simp only [le16, leDec, List.foldr]
  omega

theorem leDec_le32 (x : Nat) : leDec (le32 x) = x % 4294967296 := by
  simp only [le32, leDec, List.foldr]
  omega

theorem leDec_le64 (x : Nat) : leDec (le64 x) = x % 18446744073709551616 := by
  simp only [le64, leDec, List.foldr]
  omega

theorem leDec_le16_eq (x : Nat) (h : x < 65536) : leDec (le16 x) = x := by
  rw [leDec_le16]; omega

theorem leDec_le32_eq (x : Nat) (h : x < 4294967296) : leDec (le32 x) = x := by
  rw [leDec_le32]; omega

theorem leDec_le64_eq (x : Nat) (h : x < 18446744073709551616) : leDec (le64 x) = x := by
  rw [leDec_le64]; omega

/-! ## Reading fields out of a byte file

The reader seeks around a byte source; we model the source as a `List Nat`
and a read of `n` bytes at absolute position `p`.  A read that runs past the
end of the file fails, exactly as `read_exact` does. -/

/-- Read `n` bytes at position `p`; `none` models a failing `read_exact`. -/
def readBytesAt (l : List Nat) (p n : Nat) : Option (List Nat) :=
  if p + n ≤ l.length then some ((l.drop p).take n) else none

/-- Read a little-endian `u16` at position `p`. -/
def readU16At (l : List Nat) (p : Nat) : Option Nat := (readBytesAt l p 2).map leDec

/-- Read a little-endian `u32` at position `p`. -/
def readU32At (l : List Nat) (p : Nat) : Option Nat := (readBytesAt l p 4).map leDec

/-- Read a little-endian `u64` at position `p`. -/
def readU64At (l : List Nat) (p : Nat) : Option Nat := (readBytesAt l p 8).map leDec

theorem readBytesAt_peel (x rest : List Nat) (p n : Nat) :
    readBytesAt (x ++ rest) (x.length + p) n = readBytesAt rest p n := by
  unfold readBytesAt
  rw [List.drop_append_eq_append_drop, List.drop_eq_nil_of_le (by omega), List.nil_append]
  simp [List.length_append, Nat.add_assoc]

theorem readBytesAt_head (x rest : List Nat) (n : Nat) (h : x.length = n) :
    readBytesAt (x ++ rest) 0 n = some x := by
  subst h
  unfold readBytesAt
  simp [List.take_append]

theorem readU16At_peel (x rest : List Nat) (p q : Nat) (hx : x.length + p = q) :
    readU16At (x ++ rest) q = readU16At rest p := by
  subst hx; unfold readU16At; rw [readBytesAt_peel]

theorem readU32At_peel (x rest : List Nat) (p q : Nat) (hx : x.length + p = q) :
    readU32At (x ++ rest) q = readU32At rest p := by
  subst hx; unfold readU32At; rw [readBytesAt_peel]

theorem readU64At_peel (x rest : List Nat) (p q : Nat) (hx : x.length + p = q) :
    readU64At (x ++ rest) q = readU64At rest p := by
  subst hx; unfold readU64At; rw [readBytesAt_peel]

theorem readBytesAt_peel' (x rest : List Nat) (p q n : Nat) (hx : x.length + p = q) :
    readBytesAt (x ++ rest) q n = readBytesAt rest p n := by
  subst hx; exact readBytesAt_peel x rest p n

theorem readU16At_head (x rest : List Nat) (h : x.length = 2) :
    readU16At (x ++ rest) 0 = some (leDec x) := by
  unfold readU16At; rw [readBytesAt_head x rest 2 h]; rfl

theorem readU32At_head (x rest : List Nat) (h : x.length = 4) :
    readU32At (x ++ rest) 0 = some (leDec x) := by
  unfold readU32At; rw [readBytesAt_head x rest 4 h]; rfl

theorem readU64At_head (x rest : List Nat) (h : x.length = 8) :
    readU64At (x ++ rest) 0 = some (leDec x) := by
  unfold readU64At; rw [readBytesAt_head x rest 8 h]; rfl

/-! ## CRC-32 (IEEE), as computed by the `crc32fast` hasher -/

/-- One bit-step of the reflected CRC-32 with polynomial `0xEDB88320`. -/
def crc32Bit (c : Nat) : Nat :=
  if c % 2 = 1 then Nat.xor (c / 2) 0xEDB88320 else c / 2

/-- Fold one input byte into the running CRC state. -/
def crc32Byte (c b : Nat) : Nat := crc32Bit^[8] (Nat.xor c b)

/-- Update the running CRC state with a chunk of bytes
(`crc32fast::Hasher::update`). -/
def crc32Update (c : Nat) (d : List Nat) : Nat := d.foldl crc32Byte c

/-- IEEE CRC-32 of a byte sequence (`crc32fast::Hasher::finalize` after
feeding the whole sequence from the initial state). -/
def crc32 (d : List Nat) : Nat := Nat.xor (crc32Update 0xFFFFFFFF d) 0xFFFFFFFF

theorem crc32Bit_lt (c : Nat) (h : c < 4294967296) : crc32Bit c < 4294967296 := by
  unfold crc32Bit
  split
  · have h2 : c / 2 < 2147483648 := by omega
    have := Nat.xor_lt_two_pow (n := 32) (by omega : c / 2 < 2 ^ 32)
      (by norm_num : 0xEDB88320 < 2 ^ 32)
    simpa using this
  · omega

theorem crc32Byte_lt (c b : Nat) (hc : c < 4294967296) (hb : b < 4294967296) :
    crc32Byte c b < 4294967296 := by
  unfold crc32Byte
  have h0 : Nat.xor c b < 4294967296 := by
    have := Nat.xor_lt_two_pow (n := 32) (by simpa using hc) (by simpa using hb)
    simpa using this
  have step : ∀ k x, x < 4294967296 → crc32Bit^[k] x < 4294967296 := by
    intro k
    induction k with
    | zero => intro x hx; simpa using hx
    | succ k ih =>
      intro x hx
      rw [Function.iterate_succ_apply]
      exact ih _ (crc32Bit_lt x hx)
  exact step 8 _ h0

theorem crc32Update_lt (c : Nat) (d : List Nat) (hc : c < 4294967296)
    (hd : ∀ b ∈ d, b < 256) : crc32Update c d < 4294967296 := by
  induction d generalizing c with
  | nil => simpa [crc32Update] using hc
  | cons a l ih =>
    have ha : a < 256 := hd a (by simp)
    have : crc32Byte c a < 4294967296 := crc32Byte_lt c a hc (by omega)
    simpa [crc32Update] using ih (crc32Byte c a) this (fun b hb => hd b (by simp [hb]))

theorem crc32_lt (d : List Nat) (hd : ∀ b ∈ d, b < 256) : crc32 d < 4294967296 := by
  unfold crc32
  have h1 : crc32Update 0xFFFFFFFF d < 4294967296 :=
    crc32Update_lt _ d (by norm_num) hd
  have := Nat.xor_lt_two_pow (n := 32) (by simpa using h1)
    (by norm_num : (0xFFFFFFFF : Nat) < 2 ^ 32)
  simpa using this

/-! ## SHA-1, HMAC-SHA1, PBKDF2

Modelled from the spec: the `sha1`, `hmac` and `pbkdf2` crates used by
`src/encryption.rs` are third-party code; §4.3 of the specification fixes
them as PBKDF2-HMAC-SHA1 with 1000 iterations over standard SHA-1, which is
what the executable definitions below implement. -/

/-- Left-rotate a 32-bit word by `n` bits. -/
def rotl32 (n x : Nat) : Nat := (x <<< n ||| x >>> (32 - n)) % 4294967296

/-- Big-endian 4-byte encoding of a 32-bit word. -/
def be32 (x : Nat) : List Nat := [x / 16777216 % 256, x / 65536 % 256, x / 256 % 256, x % 256]

/-- Big-endian 8-byte encoding of a 64-bit word. -/
def be64 (x : Nat) : List Nat :=
  [x / 72057594037927936 % 256, x / 281474976710656 % 256, x / 1099511627776 % 256,
   x / 4294967296 % 256, x / 16777216 % 256, x / 65536 % 256, x / 256 % 256, x % 256]

/-- Big-endian decoding of a byte list into a word. -/
def beWord (bs : List Nat) : Nat := bs.foldl (fun acc b => acc * 256 + b) 0

/-- Split a byte list into 64-byte blocks. -/
def chunks64 (l : List Nat) : List (List Nat) :=
  if h : l = [] then [] else l.take 64 :: chunks64 (l.drop 64)
termination_by l.length
decreasing_by
  simp only [List.length_drop]
  have : 0 < l.length := List.length_pos.mpr h
  omega

/-- The five-word SHA-1 chaining state. -/
structure Sha1State where
  a0 : Nat
  b0 : Nat
  c0 : Nat
  d0 : Nat
  e0 : Nat

/-- Extend the 16 message words of a block to the 80-word SHA-1 schedule. -/
def sha1Schedule (ws : List Nat) : List Nat :=
  (List.range 64).foldl (fun acc _ =>
    let n := acc.length
    acc ++ [rotl32 1 (Nat.xor (Nat.xor (acc.getD (n - 3) 0) (acc.getD (n - 8) 0))
                      (Nat.xor (acc.getD (n - 14) 0) (acc.getD (n - 16) 0)))]) ws

/-- The SHA-1 round mixing function. -/
def sha1F (t b c d : Nat) : Nat :=
  if t < 20 then Nat.lor (Nat.land b c) (Nat.land (Nat.xor b 0xFFFFFFFF) d)
  else if t < 40 then Nat.xor (Nat.xor b c) d
  else if t < 60 then Nat.lor (Nat.lor (Nat.land b c) (Nat.land b d)) (Nat.land c d)
  else Nat.xor (Nat.xor b c) d

/-- The SHA-1 round constants. -/
def sha1K (t : Nat) : Nat :=
  if t < 20 then 0x5A827999 else if t < 40 then 0x6ED9EBA1
  else if t < 60 then 0x8F1BBCDC else 0xCA62C1D6

/-- SHA-1 compression of one 64-byte block into the chaining state. -/
def sha1Block (st : Sha1State) (block : List Nat) : Sha1State :=
  let ws := (List.range 16).map (fun i => beWord ((block.drop (4 * i)).take 4))
  let w := sha1Schedule ws
  let fin := (List.range 80).foldl (fun q t =>
    let tmp := (rotl32 5 q.a0 + sha1F t q.b0 q.c0 q.d0 + q.e0 + sha1K t + w.getD t 0) % 4294967296
    ⟨tmp, q.a0, rotl32 30 q.b0, q.c0, q.d0⟩) st
  ⟨(st.a0 + fin.a0) % 4294967296, (st.b0 + fin.b0) % 4294967296,
   (st.c0 + fin.c0) % 4294967296, (st.d0 + fin.d0) % 4294967296,
   (st.e0 + fin.e0) % 4294967296⟩

/-- SHA-1 padding: a 0x80 byte, zeros to 56 mod 64, and the 64-bit bit length. -/
def sha1Pad (msg : List Nat) : List Nat :=
  msg ++ [0x80] ++ List.replicate ((64 + 56 - (msg.length + 1) % 64) % 64) 0
      ++ be64 (8 * msg.length)

/-- The SHA-1 digest (20 bytes) of a byte sequence. -/
def sha1 (msg : List Nat) : List Nat :=
  let st := (chunks64 (sha1Pad msg)).foldl sha1Block
    ⟨0x67452301, 0xEFCDAB89, 0x98BADCFE, 0x10325476, 0xC3D2E1F0⟩
  be32 st.a0 ++ be32 st.b0 ++ be32 st.c0 ++ be32 st.d0 ++ be32 st.e0

theorem sha1_length (msg : List Nat) : (sha1 msg).length = 20 := by
  simp [sha1, be32]

/-- HMAC-SHA1 of a message under a key. -/
def hmacSha1 (key msg : List Nat) : List Nat :=
  let k0 := if 64 < key.length then sha1 key else key
  let kp := k0 ++ List.replicate (64 - k0.length) 0
  sha1 ((kp.map (fun b => Nat.xor b 0x5C)) ++ sha1 ((kp.map (fun b => Nat.xor b 0x36)) ++ msg))

theorem hmacSha1_length (key msg : List Nat) : (hmacSha1 key msg).length = 20 := by
  simp [hmacSha1, sha1_length]

/-- Pointwise xor of two byte lists. -/
def listXor (a b : List Nat) : List Nat := List.zipWith Nat.xor a b

/-- One output block `F(password, salt, iters, idx)` of PBKDF2-HMAC-SHA1. -/
def pbkdf2Block (password salt : List Nat) (iters idx : Nat) : List Nat :=
  let u1 := hmacSha1 password (salt ++ be32 idx)
  ((List.range (iters - 1)).foldl (fun st _ =>
    let u := hmacSha1 password st.2
    (listXor st.1 u, u)) (u1, u1)).1

/-- PBKDF2-HMAC-SHA1 key derivation (`pbkdf2_hmac::<Sha1>`). -/
def pbkdf2HmacSha1 (password salt : List Nat) (iters dkLen : Nat) : List Nat :=
  (((List.range ((dkLen + 19) / 20)).map
      (fun i => pbkdf2Block password salt iters (i + 1))).flatten).take dkLen

/-! ## AES-256 and the CTR keystream

Modelled from the spec: the `aes` and `ctr` crates used by
`src/encryption.rs` are third-party code; §4.3 fixes them as AES-256 in CTR
mode with a big-endian 128-bit counter, which is implemented below. -/

/-- The AES S-box. -/
def aesSbox : List Nat := [
  0x63,0x7c,0x77,0x7b,0xf2,0x6b,0x6f,0xc5,0x30,0x01,0x67,0x2b,0xfe,0xd7,0xab,0x76,
  0xca,0x82,0xc9,0x7d,0xfa,0x59,0x47,0xf0,0xad,0xd4,0xa2,0xaf,0x9c,0xa4,0x72,0xc0,
  0xb7,0xfd,0x93,0x26,0x36,0x3f,0xf7,0xcc,0x34,0xa5,0xe5,0xf1,0x71,0xd8,0x31,0x15,
  0x04,0xc7,0x23,0xc3,0x18,0x96,0x05,0x9a,0x07,0x12,0x80,0xe2,0xeb,0x27,0xb2,0x75,
  0x09,0x83,0x2c,0x1a,0x1b,0x6e,0x5a,0xa0,0x52,0x3b,0xd6,0xb3,0x29,0xe3,0x2f,0x84,
  0x53,0xd1,0x00,0xed,0x20,0xfc,0xb1,0x5b,0x6a,0xcb,0xbe,0x39,0x4a,0x4c,0x58,0xcf,
  0xd0,0xef,0xaa,0xfb,0x43,0x4d,0x33,0x85,0x45,0xf9,0x02,0x7f,0x50,0x3c,0x9f,0xa8,
  0x51,0xa3,0x40,0x8f,0x92,0x9d,0x38,0xf5,0xbc,0xb6,0xda,0x21,0x10,0xff,0xf3,0xd2,
  0xcd,0x0c,0x13,0xec,0x5f,0x97,0x44,0x17,0xc4,0xa7,0x7e,0x3d,0x64,0x5d,0x19,0x73,
  0x60,0x81,0x4f,0xdc,0x22,0x2a,0x90,0x88,0x46,0xee,0xb8,0x14,0xde,0x5e,0x0b,0xdb,
  0xe0,0x32,0x3a,0x0a,0x49,0x06,0x24,0x5c,0xc2,0xd3,0xac,0x62,0x91,0x95,0xe4,0x79,
  0xe7,0xc8,0x37,0x6d,0x8d,0xd5,0x4e,0xa9,0x6c,0x56,0xf4,0xea,0x65,0x7a,0xae,0x08,
  0xba,0x78,0x25,0x2e,0x1c,0xa6,0xb4,0xc6,0xe8,0xdd,0x74,0x1f,0x4b,0xbd,0x8b,0x8a,
  0x70,0x3e,0xb5,0x66,0x48,0x03,0xf6,0x0e,0x61,0x35,0x57,0xb9,0x86,0xc1,0x1d,0x9e,
  0xe1,0xf8,0x98,0x11,0x69,0xd9,0x8e,0x94,0x9b,0x1e,0x87,0xe9,0xce,0x55,0x28,0xdf,
  0x8c,0xa1,0x89,0x0d,0xbf,0xe6,0x42,0x68,0x41,0x99,0x2d,0x0f,0xb0,0x54,0xbb,0x16]

/-- S-box lookup. -/
def sbox (b : Nat) : Nat := aesSbox.getD (b % 256) 0

/-- Multiplication by 2 in GF(2^8). -/
def xtime (b : Nat) : Nat := if b < 128 then 2 * b else Nat.xor (2 * b % 256) 0x1B

/-- The AES round constants used for a 256-bit key. -/
def aesRcon : List Nat := [0x01, 0x02, 0x04, 0x08, 0x10, 0x20, 0x40]

/-- Apply the S-box to each byte of a 32-bit word. -/
def subWord (w : Nat) : Nat :=
  sbox (w / 16777216 % 256) * 16777216 + sbox (w / 65536 % 256) * 65536 +
    sbox (w / 256 % 256) * 256 + sbox (w % 256)

/-- Rotate a 32-bit word left by one byte. -/
def rotWord (w : Nat) : Nat := (w % 16777216) * 256 + w / 16777216

/-- AES-256 key expansion: 60 round-key words from the 32-byte key. -/
def aesKeyWords (key : List Nat) : List Nat :=
  let base := (List.range 8).map (fun i => beWord ((key.drop (4 * i)).take 4))
  (List.range 52).foldl (fun ws _ =>
    let n := ws.length
    let prev := ws.getD (n - 1) 0
    let temp :=
      if n % 8 = 0 then Nat.xor (subWord (rotWord prev)) (aesRcon.getD (n / 8 - 1) 0 * 16777216)
      else if n % 8 = 4 then subWord prev
      else prev
    ws ++ [Nat.xor (ws.getD (n - 8) 0) temp]) base

/-- The four bytes of a 32-bit word, big-endian. -/
def wordBytes (w : Nat) : List Nat := [w / 16777216 % 256, w / 65536 % 256, w / 256 % 256, w % 256]

/-- The 16-byte round key for round `r`. -/
def roundKey (ws : List Nat) (r : Nat) : List Nat :=
  wordBytes (ws.getD (4 * r) 0) ++ wordBytes (ws.getD (4 * r + 1) 0) ++
    wordBytes (ws.getD (4 * r + 2) 0) ++ wordBytes (ws.getD (4 * r + 3) 0)

/-- SubBytes on the flat (column-major) 16-byte state. -/
def subBytesOp (s : List Nat) : List Nat := s.map sbox

/-- ShiftRows on the flat 16-byte state. -/
def shiftRowsOp (s : List Nat) : List Nat :=
  (List.range 16).map (fun i => s.getD ((i + 4 * (i % 4)) % 16) 0)

/-- MixColumns on one column. -/
def mixColumn (x0 x1 x2 x3 : Nat) : List Nat :=
  [Nat.xor (Nat.xor (xtime x0) (Nat.xor (xtime x1) x1)) (Nat.xor x2 x3),
   Nat.xor (Nat.xor x0 (xtime x1)) (Nat.xor (Nat.xor (xtime x2) x2) x3),
   Nat.xor (Nat.xor x0 x1) (Nat.xor (xtime x2) (Nat.xor (xtime x3) x3)),
   Nat.xor (Nat.xor (Nat.xor (xtime x0) x0) x1) (Nat.xor x2 (xtime x3))]

/-- MixColumns on the flat 16-byte state. -/
def mixColumnsOp (s : List Nat) : List Nat :=
  (List.range 4).foldr (fun c acc =>
    mixColumn (s.getD (4 * c) 0) (s.getD (4 * c + 1) 0)
      (s.getD (4 * c + 2) 0) (s.getD (4 * c + 3) 0) ++ acc) []

/-- AddRoundKey on the flat 16-byte state. -/
def addRoundKey (s k : List Nat) : List Nat := List.zipWith Nat.xor s k

/-- AES-256 encryption of a single 16-byte block. -/
def aes256Block (key block : List Nat) : List Nat :=
  let ws := aesKeyWords key
  let s0 := addRoundKey block (roundKey ws 0)
  let sMain := (List.range 13).foldl (fun s r =>
    addRoundKey (mixColumnsOp (shiftRowsOp (subBytesOp s))) (roundKey ws (r + 1))) s0
  addRoundKey (shiftRowsOp (subBytesOp sMain)) (roundKey ws 14)

/-- Big-endian 16-byte encoding of the 128-bit CTR counter block. -/
def be128 (x : Nat) : List Nat := be64 (x / 18446744073709551616) ++ be64 x

/-- The AES-256-CTR keystream for a cipher freshly constructed with the
all-zero IV: the big-endian counter starts at block 0. -/
def ctrKeystream (key : List Nat) (nblocks : Nat) : List Nat :=
  ((List.range nblocks).map (fun i => aes256Block key (be128 i))).flatten

/-- One `AesEncryptor::encrypt` (or `AesDecryptor::decrypt`) call: a fresh
`Ctr128BE::<Aes256>` cipher with the all-zero IV is built and its keystream,
starting at counter zero, is xored over the data in place. -/
def encryptBytes (key data : List Nat) : List Nat :=
  List.zipWith Nat.xor data (ctrKeystream key ((data.length + 15) / 16))

theorem roundKey_length (ws : List Nat) (r : Nat) : (roundKey ws r).length = 16 := by
  simp [roundKey, wordBytes]

theorem aes256Block_length (key block : List Nat) :
    (aes256Block key block).length = 16 := by
  have hsr : ∀ s : List Nat, (shiftRowsOp s).length = 16 := by
    intro s; simp [shiftRowsOp]
  have hmc : ∀ s : List Nat, (mixColumnsOp s).length = 16 := by
    intro s; simp [mixColumnsOp, mixColumn, List.range_succ]
  have hark : ∀ s k : List Nat, (addRoundKey s k).length = min s.length k.length := by
    intro s k; simp [addRoundKey]
  have hstep : ∀ (ws : List Nat) (s : List Nat) (r : Nat),
      (addRoundKey (mixColumnsOp (shiftRowsOp (subBytesOp s))) (roundKey ws (r + 1))).length
        = 16 := by
    intro ws s r; rw [hark, hmc, roundKey_length]; simp
  unfold aes256Block
  rw [hark, hsr, roundKey_length]
  simp

theorem ctrKeystream_length (key : List Nat) (n : Nat) :
    (ctrKeystream key n).length = 16 * n := by
  unfold ctrKeystream
  induction n with
  | zero => simp
  | succ m ih =>
    rw [List.range_succ]
    simp only [List.map_append, List.map_cons, List.map_nil, List.flatten_append,
      List.length_append]
    rw [ih]
    have : (aes256Block key (be128 m)).length = 16 := aes256Block_length key (be128 m)
    simp [this]
    ring

theorem encryptBytes_length (key data : List Nat) :
    (encryptBytes key data).length = data.length := by
  unfold encryptBytes
  rw [List.length_zipWith, ctrKeystream_length]
  omega

/-! ## Errors and codecs -/

/-- The error enum of `src/error.rs` (`SZipError`).  `ioErr` stands for the
`Io` variant; the carried `io::Error` payload is not modelled. -/
inductive SZipErr where
  | ioErr : SZipErr
  | invalidFormat : String → SZipErr
  | entryNotFound : List Nat → SZipErr
  | unsupportedCompression : Nat → SZipErr
  | encryptionErr : String → SZipErr
  | incorrectPassword : SZipErr
deriving DecidableEq, Repr

/-- Modelled from the spec: §1 and §2 treat the DEFLATE/Zstd crates as opaque
byte-in/byte-out stream compressors, so a codec is just a pair of total byte
transformers.  A streaming encoder fed chunks and then finished emits exactly
`compress` of the concatenated input. -/
structure Codec where
  compress : List Nat → List Nat
  decompress : List Nat → List Nat

/-- The codec contract: decompression undoes compression. -/
def Codec.Lossless (c : Codec) : Prop := ∀ d, c.decompress (c.compress d) = d

/-- The identity codec; it trivially satisfies `Codec.Lossless` and is used to
instantiate theorems that hold for every conforming codec. -/
def idCodec : Codec := ⟨fun d => d, fun d => d⟩

theorem idCodec_lossless : idCodec.Lossless := fun _ => rfl

/-! ## The encryption unit (`src/encryption.rs`) -/

/-- `AesStrength::Aes256.salt_size()`. -/
def aesSaltSize : Nat := 16

/-- `AesStrength::Aes256.key_size()`. -/
def aesKeySize : Nat := 32

/-- `AesStrength::Aes256.derived_key_size()`: key + IV + 2-byte verifier. -/
def aesDerivedKeySize : Nat := aesKeySize * 2 + 2

/-- `AesStrength::Aes256.to_winzip_code()`. -/
def aesWinzipCode : Nat := 3

/-- The state of an `AesEncryptor`.  The running HMAC object is represented
by the exact byte sequence fed to it so far (`hmacFed`); finalising the HMAC
hashes precisely that sequence. -/
structure AesEncryptor where
  salt : List Nat
  passwordVerify : List Nat
  encryptionKey : List Nat
  authKey : List Nat
  hmacFed : List Nat
deriving DecidableEq, Repr

/-- `AesEncryptor::new`: PBKDF2-HMAC-SHA1 with 1000 iterations over the
password and salt; the derived material is split into encryption key (32 B),
authentication key (32 B) and password verifier (2 B).  The salt, drawn from
the OS CSPRNG in the source, is supplied by the caller here. -/
def aesEncryptorNew (password salt : List Nat) : AesEncryptor :=
  let dk := pbkdf2HmacSha1 password salt 1000 aesDerivedKeySize
  { salt := salt
    passwordVerify := [dk.getD 64 0, dk.getD 65 0]
    encryptionKey := dk.take 32
    authKey := (dk.drop 32).take 32
    hmacFed := [] }

/-- `AesEncryptor::update_hmac`: append data to the HMAC input.  (The writer
pipeline never calls this.) -/
def AesEncryptor.updateHmac (e : AesEncryptor) (data : List Nat) : AesEncryptor :=
  { e with hmacFed := e.hmacFed ++ data }

/-- `AesEncryptor::finalize`: the first 10 bytes of the HMAC-SHA1 over
whatever was fed to the HMAC. -/
def AesEncryptor.finalizeAuth (e : AesEncryptor) : List Nat :=
  (hmacSha1 e.authKey e.hmacFed).take 10

/-- The password verifier freshly derived from a password and salt, exactly
as `AesDecryptor::new` recomputes it. -/
def derivedVerifier (password salt : List Nat) : List Nat :=
  let dk := pbkdf2HmacSha1 password salt 1000 aesDerivedKeySize
  [dk.getD 64 0, dk.getD 65 0]

/-- The state of an `AesDecryptor`. -/
structure AesDecryptor where
  encryptionKey : List Nat
  authKey : List Nat
  passwordVerify : List Nat
  hmacFed : List Nat
deriving DecidableEq, Repr

/-- `AesDecryptor::new`: validate the salt size, derive keys, then compare
the freshly derived verifier with the stored one; a mismatch is rejected with
`SZipError::InvalidFormat("Incorrect password")` before any decryption state
is returned. -/
def aesDecryptorNew (password salt passwordVerify : List Nat) :
    Except SZipErr AesDecryptor :=
  if salt.length ≠ aesSaltSize then
    .error (.invalidFormat ("Invalid salt size: expected " ++ toString aesSaltSize ++
      ", got " ++ toString salt.length))
  else
    let dk := pbkdf2HmacSha1 password salt 1000 aesDerivedKeySize
    let expected := [dk.getD 64 0, dk.getD 65 0]
    if expected ≠ passwordVerify then
      .error (.invalidFormat "Incorrect password")
    else
      .ok { encryptionKey := dk.take 32
            authKey := (dk.drop 32).take 32
            passwordVerify := passwordVerify
            hmacFed := [] }

/-! ## The streaming writer (`src/writer.rs`) -/

/-- `CompressionMethod` of the writer. -/
inductive CompressionMethod where
  | stored : CompressionMethod
  | deflate : CompressionMethod
  | zstd : CompressionMethod
deriving DecidableEq, Repr

/-- `CompressionMethod::to_zip_method`. -/
def CompressionMethod.toZipMethod : CompressionMethod → Nat
  | .stored => 0
  | .deflate => 8
  | .zstd => 93

/-- A sealed entry as recorded for the central directory (`ZipEntry` of the
writer). -/
structure WEntry where
  name : List Nat
  localHeaderOffset : Nat
  crc32 : Nat
  compressedSize : Nat
  uncompressedSize : Nat
  compressionMethod : Nat
deriving DecidableEq, Repr

/-- The live entry (`CurrentEntry` plus its `CrcCounter`).  `fed` is the byte
sequence handed to the streaming compressor so far; the compressed output is
realised when the entry is finished (the flush thresholds of the source only
change when bytes move to the sink, never which bytes are emitted). -/
structure WCurrentEntry where
  name : List Nat
  localHeaderOffset : Nat
  fed : List Nat
  crcAcc : Nat
  uncompressedCount : Nat
  compressionMethod : Nat
  encryptor : Option AesEncryptor
deriving Repr

/-- The writer (`StreamingZipWriter`).  `output` is the byte stream written
to the sink so far; the opaque DEFLATE/Zstd compressors are the two codec
fields. -/
structure WriterState where
  output : List Nat
  entries : List WEntry
  currentEntry : Option WCurrentEntry
  compressionLevel : Nat
  compressionMethod : CompressionMethod
  password : Option (List Nat)
  deflateCodec : Codec
  zstdCodec : Codec

/-- `StreamingZipWriter::from_writer_with_method` on an empty sink. -/
def fromWriter (deflate zstd : Codec) (method : CompressionMethod) (level : Nat)
    (password : Option (List Nat)) : WriterState :=
  { output := [], entries := [], currentEntry := none, compressionLevel := level,
    compressionMethod := method, password := password,
    deflateCodec := deflate, zstdCodec := zstd }

/-- The codec the writer uses for a live entry with the given method code. -/
def WriterState.codecFor (st : WriterState) (method : Nat) : Codec :=
  if method = 93 then st.zstdCodec else st.deflateCodec

/-- The WinZip AES extra field written by `start_entry_with_hint` (header id
`0x9901`).  The declared data size is the literal `7` of the source even
though eight data bytes follow it (the strength code is written as a full
`u16`). -/
def aeExtraField (method : Nat) : List Nat :=
  [0x01, 0x99] ++ [7, 0] ++ [2, 0] ++ [0x41, 0x45] ++ le16 aesWinzipCode ++ le16 method

/-- The local file header written by `start_entry_with_hint`, including the
AES extra field, salt and password verifier when an encryptor is present. -/
def localHeaderBytes (name : List Nat) (method : Nat) (enc : Option AesEncryptor) :
    List Nat :=
  [0x50, 0x4b, 0x03, 0x04] ++ [51, 0] ++
    [8 ||| (if enc.isSome then 1 else 0), 0] ++
    le16 method ++ [0, 0, 0, 0] ++ le32 0 ++ le32 0 ++ le32 0 ++
    le16 (name.length % 65536) ++
    le16 (if enc.isSome then 11 else 0) ++
    name ++
    (match enc with
     | some e => aeExtraField method ++ e.salt ++ e.passwordVerify
     | none => [])

/-- The data descriptor written by `finish_current_entry`: signature, CRC,
then both sizes as `u64` when either exceeds `u32::MAX`, else both as `u32`. -/
def dataDescriptor (crc csize usize : Nat) : List Nat :=
  [0x50, 0x4b, 0x07, 0x08] ++ le32 crc ++
    (if csize > 0xFFFFFFFF ∨ usize > 0xFFFFFFFF then le64 csize ++ le64 usize
     else le32 csize ++ le32 usize)

/-- `finish_current_entry`: finish the compressor, drain it to the sink,
append the AE-2 authentication code when encrypting, write the data
descriptor, and record the sealed entry.  The source can only fail here on
sink or codec I/O, which the embedding does not model, so this is total. -/
def finishCurrentEntry (st : WriterState) : WriterState :=
  match st.currentEntry with
  | none => st
  | some e =>
    let compressed := (st.codecFor e.compressionMethod).compress e.fed
    let authCode := match e.encryptor with
      | some enc => enc.finalizeAuth
      | none => []
    let crc := Nat.xor e.crcAcc 0xFFFFFFFF
    let csize := compressed.length + authCode.length
    let usize := e.uncompressedCount
    { st with
      output := st.output ++ compressed ++ authCode ++ dataDescriptor crc csize usize
      currentEntry := none
      entries := st.entries ++
        [{ name := e.name, localHeaderOffset := e.localHeaderOffset, crc32 := crc,
           compressedSize := csize, uncompressedSize := usize,
           compressionMethod := e.compressionMethod }] }

/-- `start_entry_with_hint` (the size hint only tunes buffer capacities and
is dropped).  The previous entry is finished first; then the local header is
emitted and the per-entry encoder and optional encryptor are created.  With
method `Stored` the source returns `InvalidFormat("Stored method not yet
implemented")` (after the header bytes already reached the sink; the
embedding drops the half-written sink state together with the writer, which
no caller can observe through the API).  The salt argument stands for the
16 random bytes `generate_salt` draws from the OS. -/
def startEntry (st0 : WriterState) (name : List Nat) (salt : List Nat) :
    Except SZipErr WriterState :=
  let st := finishCurrentEntry st0
  let offset := st.output.length
  let method := st.compressionMethod.toZipMethod
  let enc : Option AesEncryptor := st.password.map (fun pw => aesEncryptorNew pw salt)
  match st.compressionMethod with
  | .stored => .error (.invalidFormat "Stored method not yet implemented")
  | _ => .ok { st with
      output := st.output ++ localHeaderBytes name method enc
      currentEntry := some
        { name := name, localHeaderOffset := offset, fed := [],
          crcAcc := 0xFFFFFFFF, uncompressedCount := 0,
          compressionMethod := method, encryptor := enc } }

/-- `write_data`: update CRC and uncompressed count with the plaintext; when
an encryptor is present, encrypt the chunk (a fresh CTR cipher per call) and
hand the ciphertext to the compressor, else hand the plaintext over.  The
HMAC is not touched. -/
def writeData (st : WriterState) (data : List Nat) : Except SZipErr WriterState :=
  match st.currentEntry with
  | none => .error (.invalidFormat "No entry started")
  | some e =>
    let dataToCompress := match e.encryptor with
      | some enc => encryptBytes enc.encryptionKey data
      | none => data
    let e2 : WCurrentEntry :=
      { e with
        crcAcc := crc32Update e.crcAcc data
        uncompressedCount := e.uncompressedCount + data.length
        fed := e.fed ++ dataToCompress }
    .ok { st with currentEntry := some e2 }

/-- The per-entry ZIP64 extra field of the central directory (`finish`):
present when any of the three values exceeds `u32::MAX`, its payload the
promoted fields as 8-byte little-endian values in the order uncompressed,
compressed, offset. -/
def zip64ExtraField (usize csize offset : Nat) : List Nat :=
  if usize > 0xFFFFFFFF ∨ csize > 0xFFFFFFFF ∨ offset > 0xFFFFFFFF then
    let data := (if usize > 0xFFFFFFFF then le64 usize else []) ++
      (if csize > 0xFFFFFFFF then le64 csize else []) ++
      (if offset > 0xFFFFFFFF then le64 offset else [])
    le16 1 ++ le16 (data.length % 65536) ++ data
  else []

/-- One central-directory record as emitted by `finish`. -/
def cdRecordBytes (e : WEntry) : List Nat :=
  let extra := zip64ExtraField e.uncompressedSize e.compressedSize e.localHeaderOffset
  [0x50, 0x4b, 0x01, 0x02] ++ [20, 0] ++ [20, 0] ++ [8, 0] ++
    le16 e.compressionMethod ++ [0, 0, 0, 0] ++ le32 e.crc32 ++
    (if e.compressedSize > 0xFFFFFFFF then le32 0xFFFFFFFF else le32 e.compressedSize) ++
    (if e.uncompressedSize > 0xFFFFFFFF then le32 0xFFFFFFFF else le32 e.uncompressedSize) ++
    le16 (e.name.length % 65536) ++
    le16 (extra.length % 65536) ++ le16 0 ++ le16 0 ++ le16 0 ++ le32 0 ++
    (if e.localHeaderOffset > 0xFFFFFFFF then le32 0xFFFFFFFF
     else le32 e.localHeaderOffset) ++
    e.name ++ extra

/-- The ZIP64 end-of-central-directory record written by `finish`. -/
def zip64EocdRecord (n cdSize cdOffset : Nat) : List Nat :=
  [0x50, 0x4b, 0x06, 0x06] ++ le64 44 ++ [20, 0] ++ [20, 0] ++ le32 0 ++ le32 0 ++
    le64 n ++ le64 n ++ le64 cdSize ++ le64 cdOffset

/-- The ZIP64 end-of-central-directory locator written by `finish`. -/
def zip64EocdLocator (pos : Nat) : List Nat :=
  [0x50, 0x4b, 0x06, 0x07] ++ le32 0 ++ le64 pos ++ le32 0

/-- The classic end-of-central-directory record written by `finish`, with
sentinels in the fields whose true value exceeds the 16-bit or 32-bit
limit. -/
def classicEocd (n cdSize cdOffset : Nat) : List Nat :=
  [0x50, 0x4b, 0x05, 0x06] ++ le16 0 ++ le16 0 ++
    (if n > 0xFFFF then le16 0xFFFF ++ le16 0xFFFF else le16 n ++ le16 n) ++
    (if cdSize > 0xFFFFFFFF then le32 0xFFFFFFFF else le32 cdSize) ++
    (if cdOffset > 0xFFFFFFFF then le32 0xFFFFFFFF else le32 cdOffset) ++
    le16 0

/-- Everything `finish` writes after the central directory: the ZIP64 EOCD
record and locator exactly when an EOCD field overflows, then the classic
EOCD. -/
def finishTrailer (n cdSize cdOffset : Nat) : List Nat :=
  (if n > 0xFFFF ∨ cdSize > 0xFFFFFFFF ∨ cdOffset > 0xFFFFFFFF then
     zip64EocdRecord n cdSize cdOffset ++ zip64EocdLocator (cdOffset + cdSize)
   else []) ++ classicEocd n cdSize cdOffset

/-- `finish`: finish the last entry, emit every central-directory record,
then the trailer.  Returns the full byte stream handed to the sink. -/
def finish (st0 : WriterState) : List Nat :=
  let st := finishCurrentEntry st0
  let cd := (st.entries.map cdRecordBytes).flatten
  st.output ++ cd ++ finishTrailer st.entries.length cd.length st.output.length

/-- A complete unencrypted DEFLATE writer run: one `start_entry` and one
`write_data` per `(name, bytes)` pair, then `finish`. -/
def writeSequence (deflate : Codec) (level : Nat)
    (pairs : List (List Nat × List Nat)) : Except SZipErr (List Nat) := do
  let stFin ← pairs.foldlM (fun st p => do
      let st1 ← startEntry st p.1 []
      writeData st1 p.2)
    (fromWriter deflate deflate .deflate level none)
  .ok (finish stFin)

/-! ## The streaming reader (`src/reader.rs`)

The byte source is a `List Nat`; seeks become positions.  Entry names are
kept as raw byte lists (`String::from_utf8_lossy` is the identity on the
valid UTF-8 names the writer emits). -/

/-- An entry of the reader's central directory (`ZipEntry` of the reader). -/
structure RZipEntry where
  name : List Nat
  compressedSize : Nat
  uncompressedSize : Nat
  compressionMethod : Nat
  offset : Nat
deriving DecidableEq, Repr

/-- Read 8 bytes at `p` as a little-endian `u64`, total (stands for the
in-range slice indexing of the source). -/
def u64Slice (l : List Nat) (p : Nat) : Nat := leDec ((l.drop p).take 8)

/-- Does the 4-byte window of `buf` at `i` equal the given signature bytes?
This is the comparison inside the backwards scans. -/
def sigTestAt (buf : List Nat) (i b0 b1 b2 b3 : Nat) : Bool :=
  (buf.getD i 0 == b0) && (buf.getD (i + 1) 0 == b1) &&
    (buf.getD (i + 2) 0 == b2) && (buf.getD (i + 3) 0 == b3)

/-- Descending scan: try `i = k-1, k-2, ..., 0` and return the first match,
which is the last matching window position. -/
def scanDesc (buf : List Nat) (b0 b1 b2 b3 : Nat) : Nat → Option Nat
  | 0 => none
  | i + 1 => if sigTestAt buf i b0 b1 b2 b3 then some i else scanDesc buf b0 b1 b2 b3 i

/-- The backwards signature scan `for i in (0..len.saturating_sub(3)).rev()`
of `find_eocd` / `read_zip64_eocd`. -/
def scanLastSig (buf : List Nat) (b0 b1 b2 b3 : Nat) : Option Nat :=
  scanDesc buf b0 b1 b2 b3 (buf.length - 3)

/-- `find_eocd`: scan the last `min(file_size, 65557)` bytes backwards for
the classic EOCD signature.  `saturating_sub(65557)` is written with an
explicit guard (identical on `Nat`). -/
def findEocd (file : List Nat) : Except SZipErr Nat :=
  let searchStart := if file.length ≤ 65557 then 0 else file.length - 65557
  match scanLastSig (file.drop searchStart) 0x50 0x4b 0x05 0x06 with
  | some i => .ok (searchStart + i)
  | none => .error (.invalidFormat "End of central directory not found")

/-- `read_zip64_eocd`: locate the ZIP64 EOCD locator by a backwards scan,
follow its relative offset to the ZIP64 EOCD record and return
(total entries, cd size, cd offset). -/
def readZip64Eocd (file : List Nat) (eocdOffset : Nat) :
    Except SZipErr (Nat × Nat × Nat) :=
  let searchStart := eocdOffset - 65557
  let buffer := file.drop searchStart
  match scanLastSig buffer 0x50 0x4b 0x06 0x07 with
  | none => .error (.invalidFormat "ZIP64 EOCD locator not found")
  | some locPos =>
    let z64Off := u64Slice buffer (locPos + 8)
    match readU32At file z64Off with
    | none => .error .ioErr
    | some sig =>
      if sig ≠ 0x06064b50 then
        .error (.invalidFormat ("Invalid ZIP64 EOCD signature: " ++ toString sig))
      else
        match readU64At file (z64Off + 4), readU64At file (z64Off + 24),
              readU64At file (z64Off + 32), readU64At file (z64Off + 40),
              readU64At file (z64Off + 48) with
        | some _recSize, some totalEntries, some _totalAgain, some cdSize,
          some cdOffset => .ok (totalEntries, cdSize, cdOffset)
        | _, _, _, _, _ => .error .ioErr

/-- The ZIP64 extra-field walk of `read_central_directory`: scan the
`(id, len, payload)` triples; on id `0x0001` consume 8 bytes, in order, for
each of uncompressed / compressed / offset whose classic slot is the
sentinel, stopping at the declared length. -/
def parseZip64Go (extraBuf : List Nat) (fuel : Nat) (u32v c32v o32v : Nat)
    (i : Nat) : Nat × Nat × Nat :=
  match fuel with
  | 0 => (u32v, c32v, o32v)
  | fuel + 1 =>
    if h : i + 4 ≤ extraBuf.length then
      let fieldId := leDec ((extraBuf.drop i).take 2)
      let dataLen := leDec ((extraBuf.drop (i + 2)).take 2)
      let j := i + 4
      if j + dataLen > extraBuf.length then (u32v, c32v, o32v)
      else if fieldId = 1 then
        let uStep := if u32v = 0xFFFFFFFF ∧ 0 + 8 ≤ dataLen then
            (u64Slice extraBuf j, 8) else (u32v, 0)
        let cStep := if c32v = 0xFFFFFFFF ∧ uStep.2 + 8 ≤ dataLen then
            (u64Slice extraBuf (j + uStep.2), uStep.2 + 8) else (c32v, uStep.2)
        let oVal := if o32v = 0xFFFFFFFF ∧ cStep.2 + 8 ≤ dataLen then
            u64Slice extraBuf (j + cStep.2) else o32v
        (uStep.1, cStep.1, oVal)
      else parseZip64Go extraBuf fuel u32v c32v o32v (j + dataLen)
    else (u32v, c32v, o32v)

/-- The walk entered at position `i`: the fuel `extraBuf.length + 1` bounds
the iteration count (each iteration advances the cursor by at least four
bytes, so the fuel is never exhausted). -/
def parseZip64Loop (extraBuf : List Nat) (u32v c32v o32v : Nat) (i : Nat) :
    Nat × Nat × Nat :=
  parseZip64Go extraBuf (extraBuf.length + 1) u32v c32v o32v i

/-- One iteration of the central-directory loop of
`read_central_directory` at position `pos`: `ok none` when the signature
there is not the central-directory signature (the loop breaks), otherwise
the parsed entry and the next record's position. -/
def parseCdRecord (file : List Nat) (pos : Nat) :
    Except SZipErr (Option (RZipEntry × Nat)) :=
  match readU32At file pos with
  | none => .error .ioErr
  | some sig =>
    if sig ≠ 0x02014b50 then .ok none
    else
      match readU16At file (pos + 10), readU32At file (pos + 20),
            readU32At file (pos + 24), readU16At file (pos + 28),
            readU16At file (pos + 30), readU16At file (pos + 32),
            readU32At file (pos + 42) with
      | some method, some csize32, some usize32, some nameLen, some extraLen,
        some commentLen, some offset32 =>
        match readBytesAt file (pos + 46) nameLen,
              readBytesAt file (pos + 46 + nameLen) extraLen with
        | some name, some extraBuf =>
          let promoted :=
            if csize32 = 0xFFFFFFFF ∨ usize32 = 0xFFFFFFFF ∨ offset32 = 0xFFFFFFFF then
              parseZip64Loop extraBuf usize32 csize32 offset32 0
            else (usize32, csize32, offset32)
          .ok (some
            ({ name := name, compressedSize := promoted.2.1,
               uncompressedSize := promoted.1,
               compressionMethod := method, offset := promoted.2.2 },
             pos + 46 + nameLen + extraLen + commentLen))
        | _, _ => .error .ioErr
      | _, _, _, _, _, _, _ => .error .ioErr

/-- The `for _ in 0..total_entries` loop of `read_central_directory`: parse
records until the count is exhausted, a record breaks the loop, or a read
fails. -/
def parseCdLoop (file : List Nat) (pos : Nat) : Nat → Except SZipErr (List RZipEntry)
  | 0 => .ok []
  | n + 1 =>
    match parseCdRecord file pos with
    | .error e => .error e
    | .ok none => .ok []
    | .ok (some (entry, next)) =>
      match parseCdLoop file next n with
      | .error e => .error e
      | .ok rest => .ok (entry :: rest)

/-- `StreamingZipReader::open`: find and parse the EOCD, follow the ZIP64
EOCD when any EOCD field is a sentinel, then load the central directory. -/
def openArchive (file : List Nat) : Except SZipErr (List RZipEntry) :=
  match findEocd file with
  | .error e => .error e
  | .ok eocdOff =>
    match readU32At file eocdOff with
    | none => .error .ioErr
    | some sig =>
      if sig ≠ 0x06054b50 then
        .error (.invalidFormat
          ("Invalid end of central directory signature: " ++ toString sig))
      else
        match readU16At file (eocdOff + 8), readU16At file (eocdOff + 10),
              readU32At file (eocdOff + 12), readU32At file (eocdOff + 16) with
        | some _entriesOnDisk, some total16, some cdSize32, some cdOffset32 =>
          if total16 = 0xFFFF ∨ cdSize32 = 0xFFFFFFFF ∨ cdOffset32 = 0xFFFFFFFF then
            match readZip64Eocd file eocdOff with
            | .error e => .error e
            | .ok res => parseCdLoop file res.2.2 res.1
          else parseCdLoop file cdOffset32 total16
        | _, _, _, _ => .error .ioErr

/-- `StreamingZipReader::read_entry`: seek to the local header, check its
signature, skip the fixed fields plus name and extra, read exactly
`compressed_size` bytes and decode them according to the entry's method.
No decryption happens anywhere on this path. -/
def readEntry (deflate zstd : Codec) (file : List Nat) (entry : RZipEntry) :
    Except SZipErr (List Nat) :=
  match readU32At file entry.offset with
  | none => .error .ioErr
  | some sig =>
    if sig ≠ 0x04034b50 then
      .error (.invalidFormat "Invalid local file header signature")
    else
      match readU16At file (entry.offset + 26), readU16At file (entry.offset + 28) with
      | some nameLen, some extraLen =>
        match readBytesAt file (entry.offset + 30 + nameLen + extraLen)
              entry.compressedSize with
        | none => .error .ioErr
        | some compressedData =>
          if entry.compressionMethod = 8 then .ok (deflate.decompress compressedData)
          else if entry.compressionMethod = 0 then .ok compressedData
          else if entry.compressionMethod = 93 then .ok (zstd.decompress compressedData)
          else .error (.unsupportedCompression entry.compressionMethod)
      | _, _ => .error .ioErr

/-! ## Concrete runs used by the theorems -/

set_option maxRecDepth 100000

/-- Decidable equality of `Except` results, needed to evaluate the models on
concrete archives. -/
instance instDecEqExcept {e a : Type} [DecidableEq e] [DecidableEq a] :
    DecidableEq (Except e a) := fun x y =>
  match x, y with
  | .ok u, .ok v =>
    if h : u = v then .isTrue (congrArg Except.ok h)
    else .isFalse (fun hc => h (Except.ok.inj hc))
  | .error u, .error v =>
    if h : u = v then .isTrue (congrArg Except.error h)
    else .isFalse (fun hc => h (Except.error.inj hc))
  | .ok _, .error _ => .isFalse (fun hc => Except.noConfusion hc)
  | .error _, .ok _ => .isFalse (fun hc => Except.noConfusion hc)

/-- The password "pw" as bytes. -/
def encPassword : List Nat := [112, 119]

/-- The entry name "a.txt" as bytes. -/
def encName : List Nat := [97, 46, 116, 120, 116]

/-- The entry body "hello" as bytes. -/
def encBody : List Nat := [104, 101, 108, 108, 111]

/-- A writer with the password set (AE-2 in effect for subsequent entries),
with the identity codec standing in for the opaque DEFLATE compressor. -/
def encWriter0 : WriterState := fromWriter idCodec idCodec .deflate 6 (some encPassword)

/-- Start one encrypted entry (the CSPRNG salt oracle returning all zeros)
and write "hello" through the pipeline. -/
def encRun : Except SZipErr WriterState := do
  let s1 ← startEntry encWriter0 encName (List.replicate 16 0)
  writeData s1 encBody

/-- The finished single-entry encrypted archive. -/
def encArchive : List Nat := (encRun.map finish).toOption.getD []

/-! ## C3 — starting a Store entry -/

/-- C3 counterexample: starting an entry with compression method Store
(method code 0) does not succeed; on a fresh writer configured for Store the
very first `start_entry` returns `InvalidFormat("Stored method not yet
implemented")`, so the S2 archive cannot be produced. -/
theorem startEntry_stored_concrete_fails :
    startEntry (fromWriter idCodec idCodec .stored 6 none) encName [] =
      .error (.invalidFormat "Stored method not yet implemented") := rfl

/-- C3 (amended): for every writer state configured with compression method
Store, `start_entry` fails with `InvalidFormat("Stored method not yet
implemented")`; the writer cannot emit a Store entry at all. -/
theorem startEntry_stored_fails (st : WriterState) (name salt : List Nat)
    (h : st.compressionMethod = .stored) :
    startEntry st name salt = .error (.invalidFormat "Stored method not yet implemented") := by
  have hkeep : (finishCurrentEntry st).compressionMethod = CompressionMethod.stored := by
    unfold finishCurrentEntry
    cases hc : st.currentEntry <;> simpa using h
  unfold startEntry
  simp only [hkeep]

/-- C3 witness: the general Store failure applied to a concrete writer. -/
theorem startEntry_stored_fails_witness :
    startEntry (fromWriter idCodec idCodec .stored 3 none) [98] [] =
      .error (.invalidFormat "Stored method not yet implemented") :=
  startEntry_stored_fails (fromWriter idCodec idCodec .stored 3 none) [98] [] rfl

/-! ## C5 — the error kind on a password-verifier mismatch -/

/-- C5: `AesDecryptor::new` never fails with the dedicated
`IncorrectPassword` (BadPassword-kind) variant; every failure it can
produce, the verifier mismatch included, is an `InvalidFormat` error.  (The
mismatch path returns `InvalidFormat("Incorrect password")` even though the
error enum of `src/error.rs` defines `IncorrectPassword` for exactly this
case.) -/
theorem aesDecryptorNew_never_incorrectPassword
    (password salt verify : List Nat) :
    aesDecryptorNew password salt verify ≠ .error .incorrectPassword := by
  unfold aesDecryptorNew
  split
  · intro h
    simp at h
  · dsimp only
    split
    · intro h
      simp at h
    · intro h
      simp at h

/-! ## C2 — the HMAC is never fed -/

/-- C2: after the encrypted pipeline has processed the five plaintext bytes
of "hello" (so the processed ciphertext stream `fed` has length 5), the byte
sequence accumulated by the entry's HMAC is still empty: `write_data` never
calls `update_hmac`, so the 10-byte authentication code written at entry
finalisation is the HMAC of the empty string, not of the processed data
stream. -/
theorem encrypted_run_hmac_never_updated :
    encRun.toOption.map (fun s => s.currentEntry.map (fun e =>
      (e.encryptor.map AesEncryptor.hmacFed, e.fed.length))) =
      some (some (some [], 5)) := by decide

/-! ## C4 — the local-header compression-method field under AE-2 -/

/-- C4: in the concrete encrypted archive, the local file header's
compression-method field (bytes 8-9) holds 8, the actual DEFLATE code, and
not 99; the AE-2 extra field does record the actual method 8 (bytes 45-46);
and the central directory record (at offset 96) mirrors the local header's
method field (bytes 106-107), also 8. -/
theorem encrypted_local_header_method_not_99 :
    readU16At encArchive 8 = some 8 ∧ (8 : Nat) ≠ 99 ∧
    readU16At encArchive 45 = some 8 ∧
    readU16At encArchive 106 = some 8 := by
  refine ⟨by decide, by decide, by decide, by decide⟩

/-! ## C9 — per-call CTR keystream restart -/

/-- C9: feeding a plaintext split across two `write_data` calls produces, as
the processed stream, the concatenation of the two chunks encrypted
independently — each `encrypt` call builds a fresh AES-256-CTR cipher with
the all-zero IV, so each chunk is xored against the keystream starting at
counter zero.  Moreover the restart is observable: for the all-zero key, the
ciphertext of the one-byte chunk `[0]` encrypted alone differs from what the
continuation of a single keystream over the concatenation would give. -/
theorem writeData_ctr_restarts :
    (∀ (st : WriterState) (e : WCurrentEntry) (enc : AesEncryptor) (c1 c2 : List Nat),
       st.currentEntry = some e → e.encryptor = some enc →
       Except.map (fun s => s.currentEntry.map (fun x => x.fed))
         ((writeData st c1).bind (fun s => writeData s c2)) =
       .ok (some (e.fed ++ encryptBytes enc.encryptionKey c1 ++
                  encryptBytes enc.encryptionKey c2))) ∧
    encryptBytes (List.replicate 32 0) [0] ≠
      ((ctrKeystream (List.replicate 32 0) 2).drop 1).take 1 := by
  constructor
  · intro st e enc c1 c2 h1 h2
    unfold writeData
    rw [h1]
    simp only [h2, Except.bind]
    simp [Except.map]
  · decide

/-- An encrypted live entry with explicit key material, used to witness the
keystream-restart theorem. -/
def c9Encryptor : AesEncryptor :=
  { salt := List.replicate 16 0, passwordVerify := [0, 0],
    encryptionKey := List.replicate 32 0, authKey := List.replicate 32 0,
    hmacFed := [] }

/-- A writer state mid-entry holding the explicit encryptor. -/
def c9Writer : WriterState :=
  { output := [], entries := [],
    currentEntry := some
      { name := [], localHeaderOffset := 0, fed := [], crcAcc := 0xFFFFFFFF,
        uncompressedCount := 0, compressionMethod := 8,
        encryptor := some c9Encryptor },
    compressionLevel := 6, compressionMethod := .deflate,
    password := some [], deflateCodec := idCodec, zstdCodec := idCodec }

/-- C9 witness: the keystream-restart theorem applied at the concrete
mid-entry state, with the two chunks `[0]` and `[0]`. -/
theorem writeData_ctr_restarts_witness :
    Except.map (fun s => s.currentEntry.map (fun x => x.fed))
      ((writeData c9Writer [0]).bind (fun s => writeData s [0])) =
    .ok (some ([] ++ encryptBytes (List.replicate 32 0) [0] ++
               encryptBytes (List.replicate 32 0) [0])) :=
  writeData_ctr_restarts.1 c9Writer _ c9Encryptor [0] [0] rfl rfl

/-! ## C10 — the central-directory loop stops on a bad signature -/

/-- A well-formed central-directory record for the corrupted-archive test. -/
def c10Entry : WEntry :=
  { name := [97], localHeaderOffset := 0, crc32 := 0,
    compressedSize := 1, uncompressedSize := 1, compressionMethod := 8 }

/-- A file whose central directory declares two records but whose second
record slot holds four zero bytes instead of a central-directory signature. -/
def c10File : List Nat :=
  cdRecordBytes c10Entry ++ [0, 0, 0, 0] ++ classicEocd 2 51 0

/-- C10: opening the file whose declared second central-directory record has
a wrong signature succeeds with exactly the one entry parsed before the bad
record — the loop breaks instead of raising `InvalidFormat`.  The general
fact is stated first: whenever the four bytes at the loop's position decode
to anything other than the central-directory signature, the remaining-count
loop returns `ok []` rather than an error. -/
theorem cdLoop_stops_on_bad_signature :
    (∀ (file : List Nat) (pos n : Nat),
       (readU32At file pos).isSome → readU32At file pos ≠ some 0x02014b50 →
       parseCdLoop file pos (n + 1) = .ok []) ∧
    openArchive c10File =
      .ok [{ name := [97], compressedSize := 1, uncompressedSize := 1,
             compressionMethod := 8, offset := 0 }] := by
  constructor
  · intro file pos n hsome hne
    unfold parseCdLoop
    unfold parseCdRecord
    match hv : readU32At file pos with
    | none => rw [hv] at hsome; simp at hsome
    | some w =>
      rw [hv] at hne
      have : w ≠ 0x02014b50 := by
        intro h; exact hne (by rw [h])
      simp [this]
  · decide

/-- C10 witness: the loop-stop fact applied at the corrupted file's second
record position (47), where four zero bytes sit in place of a signature. -/
theorem cdLoop_stops_on_bad_signature_witness :
    parseCdLoop c10File 47 1 = .ok [] :=
  cdLoop_stops_on_bad_signature.1 c10File 47 0 (by decide) (by decide)


theorem readU16At_all (x : List Nat) (h : x.length = 2) :
    readU16At x 0 = some (leDec x) := by
  have := readU16At_head x [] h
  simpa using this

theorem readU32At_all (x : List Nat) (h : x.length = 4) :
    readU32At x 0 = some (leDec x) := by
  have := readU32At_head x [] h
  simpa using this

theorem readU64At_all (x : List Nat) (h : x.length = 8) :
    readU64At x 0 = some (leDec x) := by
  have := readU64At_head x [] h
  simpa using this

/-! ## C8 — data-descriptor size width -/

/-- C8: the data descriptor carries both sizes as 8-byte little-endian
values exactly when either size exceeds `u32::MAX` (descriptor length 24,
compressed size at offset 8, uncompressed at 16), and both as 4-byte values
otherwise (length 16, offsets 8 and 12); the width is always the same for
the two sizes of one descriptor. -/
theorem dataDescriptor_width (crc c u : Nat)
    (hc : c < 18446744073709551616) (hu : u < 18446744073709551616) :
    (if c > 0xFFFFFFFF ∨ u > 0xFFFFFFFF then
       (dataDescriptor crc c u).length = 24 ∧
       readU64At (dataDescriptor crc c u) 8 = some c ∧
       readU64At (dataDescriptor crc c u) 16 = some u
     else
       (dataDescriptor crc c u).length = 16 ∧
       readU32At (dataDescriptor crc c u) 8 = some c ∧
       readU32At (dataDescriptor crc c u) 12 = some u) := by
  by_cases hcase : c > 0xFFFFFFFF ∨ u > 0xFFFFFFFF
  · rw [if_pos hcase]
    unfold dataDescriptor
    rw [if_pos hcase]
    simp only [List.append_assoc]
    refine ⟨?_, ?_, ?_⟩
    · simp [le32_length, le64_length]
    · rw [readU64At_peel [0x50, 0x4b, 0x07, 0x08] _ 4 8 (by decide),
          readU64At_peel (le32 crc) _ 0 4 (by simp [le32_length]),
          readU64At_head _ _ (le64_length c), leDec_le64_eq c hc]
    · rw [readU64At_peel [0x50, 0x4b, 0x07, 0x08] _ 12 16 (by decide),
          readU64At_peel (le32 crc) _ 8 12 (by simp [le32_length]),
          readU64At_peel (le64 c) _ 0 8 (by simp [le64_length]),
          readU64At_all _ (le64_length u), leDec_le64_eq u hu]
  · rw [if_neg hcase]
    unfold dataDescriptor
    rw [if_neg hcase]
    simp only [List.append_assoc]
    push_neg at hcase
    refine ⟨?_, ?_, ?_⟩
    · simp [le32_length]
    · rw [readU32At_peel [0x50, 0x4b, 0x07, 0x08] _ 4 8 (by decide),
          readU32At_peel (le32 crc) _ 0 4 (by simp [le32_length]),
          readU32At_head _ _ (le32_length c), leDec_le32_eq c (by omega)]
    · rw [readU32At_peel [0x50, 0x4b, 0x07, 0x08] _ 8 12 (by decide),
          readU32At_peel (le32 crc) _ 4 8 (by simp [le32_length]),
          readU32At_peel (le32 c) _ 0 4 (by simp [le32_length]),
          readU32At_all _ (le32_length u), leDec_le32_eq u (by omega)]

/-- C8 witness: the width theorem applied at small sizes (4-byte branch) —
descriptor of 16 bytes with both sizes readable as `u32`. -/
theorem dataDescriptor_width_witness :
    (dataDescriptor 7 5 5).length = 16 ∧
    readU32At (dataDescriptor 7 5 5) 8 = some 5 ∧
    readU32At (dataDescriptor 7 5 5) 12 = some 5 := by
  have h := dataDescriptor_width 7 5 5 (by decide) (by decide)
  rw [if_neg (by decide)] at h
  exact h

/-! ## C7 — ZIP64 EOCD emission -/

/-- The classic EOCD rewritten with the sentinel choices pushed into the
encoded values. -/
theorem classicEocd_reshape (n s o : Nat) :
    classicEocd n s o =
      [0x50, 0x4b, 0x05, 0x06] ++ le16 0 ++ le16 0 ++
        le16 (if n > 0xFFFF then 0xFFFF else n) ++
        le16 (if n > 0xFFFF then 0xFFFF else n) ++
        le32 (if s > 0xFFFFFFFF then 0xFFFFFFFF else s) ++
        le32 (if o > 0xFFFFFFFF then 0xFFFFFFFF else o) ++ le16 0 := by
  unfold classicEocd
  split_ifs <;> simp [List.append_assoc]

theorem classicEocd_length (n s o : Nat) : (classicEocd n s o).length = 22 := by
  rw [classicEocd_reshape]
  simp [le16_length, le32_length]

/-- Field extraction from the classic EOCD: signature, the two entry-count
fields, central-directory size and offset, each holding the true value or
the sentinel exactly on overflow. -/
theorem classicEocd_fields (n s o : Nat) :
    readU32At (classicEocd n s o) 0 = some 0x06054b50 ∧
    readU16At (classicEocd n s o) 8 = some (if n > 0xFFFF then 0xFFFF else n) ∧
    readU16At (classicEocd n s o) 10 = some (if n > 0xFFFF then 0xFFFF else n) ∧
    readU32At (classicEocd n s o) 12 = some (if s > 0xFFFFFFFF then 0xFFFFFFFF else s) ∧
    readU32At (classicEocd n s o) 16 = some (if o > 0xFFFFFFFF then 0xFFFFFFFF else o) := by
  rw [classicEocd_reshape]
  simp only [List.append_assoc]
  have hnv : (if n > 0xFFFF then 0xFFFF else n) < 65536 := by split <;> omega
  have hsv : (if s > 0xFFFFFFFF then 0xFFFFFFFF else s) < 4294967296 := by split <;> omega
  have hov : (if o > 0xFFFFFFFF then 0xFFFFFFFF else o) < 4294967296 := by split <;> omega
  refine ⟨?_, ?_, ?_, ?_, ?_⟩
  · rw [readU32At_head [0x50, 0x4b, 0x05, 0x06] _ (by decide)]
    decide
  · rw [readU16At_peel [0x50, 0x4b, 0x05, 0x06] _ 4 8 (by decide),
        readU16At_peel (le16 0) _ 2 4 (by simp [le16_length]),
        readU16At_peel (le16 0) _ 0 2 (by simp [le16_length]),
        readU16At_head _ _ (le16_length _), leDec_le16_eq _ hnv]
  · rw [readU16At_peel [0x50, 0x4b, 0x05, 0x06] _ 6 10 (by decide),
        readU16At_peel (le16 0) _ 4 6 (by simp [le16_length]),
        readU16At_peel (le16 0) _ 2 4 (by simp [le16_length]),
        readU16At_peel (le16 _) _ 0 2 (by simp [le16_length]),
        readU16At_head _ _ (le16_length _), leDec_le16_eq _ hnv]
  · rw [readU32At_peel [0x50, 0x4b, 0x05, 0x06] _ 8 12 (by decide),
        readU32At_peel (le16 0) _ 6 8 (by simp [le16_length]),
        readU32At_peel (le16 0) _ 4 6 (by simp [le16_length]),
        readU32At_peel (le16 _) _ 2 4 (by simp [le16_length]),
        readU32At_peel (le16 _) _ 0 2 (by simp [le16_length]),
        readU32At_head _ _ (le32_length _), leDec_le32_eq _ hsv]
  · rw [readU32At_peel [0x50, 0x4b, 0x05, 0x06] _ 12 16 (by decide),
        readU32At_peel (le16 0) _ 10 12 (by simp [le16_length]),
        readU32At_peel (le16 0) _ 8 10 (by simp [le16_length]),
        readU32At_peel (le16 _) _ 6 8 (by simp [le16_length]),
        readU32At_peel (le16 _) _ 4 6 (by simp [le16_length]),
        readU32At_peel (le32 _) _ 0 4 (by simp [le32_length]),
        readU32At_head _ _ (le32_length _), leDec_le32_eq _ hov]

theorem zip64EocdRecord_length (n s o : Nat) : (zip64EocdRecord n s o).length = 56 := by
  simp [zip64EocdRecord, le32_length, le64_length]

theorem zip64EocdLocator_length (p : Nat) : (zip64EocdLocator p).length = 20 := by
  simp [zip64EocdLocator, le32_length, le64_length]

/-- Field extraction from the ZIP64 EOCD record followed by anything. -/
theorem zip64EocdRecord_fields (n s o : Nat) (hn : n < 18446744073709551616)
    (hs : s < 18446744073709551616) (ho : o < 18446744073709551616)
    (rest : List Nat) :
    readU32At (zip64EocdRecord n s o ++ rest) 0 = some 0x06064b50 ∧
    readU64At (zip64EocdRecord n s o ++ rest) 24 = some n ∧
    readU64At (zip64EocdRecord n s o ++ rest) 32 = some n ∧
    readU64At (zip64EocdRecord n s o ++ rest) 40 = some s ∧
    readU64At (zip64EocdRecord n s o ++ rest) 48 = some o := by
  unfold zip64EocdRecord
  simp only [List.append_assoc]
  refine ⟨?_, ?_, ?_, ?_, ?_⟩
  · rw [readU32At_head [0x50, 0x4b, 0x06, 0x06] _ (by decide)]
    decide
  · rw [readU64At_peel [0x50, 0x4b, 0x06, 0x06] _ 20 24 (by decide),
        readU64At_peel (le64 44) _ 12 20 (by simp [le64_length]),
        readU64At_peel [20, 0] _ 10 12 (by decide),
        readU64At_peel [20, 0] _ 8 10 (by decide),
        readU64At_peel (le32 0) _ 4 8 (by simp [le32_length]),
        readU64At_peel (le32 0) _ 0 4 (by simp [le32_length]),
        readU64At_head _ _ (le64_length _), leDec_le64_eq _ hn]
  · rw [readU64At_peel [0x50, 0x4b, 0x06, 0x06] _ 28 32 (by decide),
        readU64At_peel (le64 44) _ 20 28 (by simp [le64_length]),
        readU64At_peel [20, 0] _ 18 20 (by decide),
        readU64At_peel [20, 0] _ 16 18 (by decide),
        readU64At_peel (le32 0) _ 12 16 (by simp [le32_length]),
        readU64At_peel (le32 0) _ 8 12 (by simp [le32_length]),
        readU64At_peel (le64 n) _ 0 8 (by simp [le64_length]),
        readU64At_head _ _ (le64_length _), leDec_le64_eq _ hn]
  · rw [readU64At_peel [0x50, 0x4b, 0x06, 0x06] _ 36 40 (by decide),
        readU64At_peel (le64 44) _ 28 36 (by simp [le64_length]),
        readU64At_peel [20, 0] _ 26 28 (by decide),
        readU64At_peel [20, 0] _ 24 26 (by decide),
        readU64At_peel (le32 0) _ 20 24 (by simp [le32_length]),
        readU64At_peel (le32 0) _ 16 20 (by simp [le32_length]),
        readU64At_peel (le64 n) _ 8 16 (by simp [le64_length]),
        readU64At_peel (le64 n) _ 0 8 (by simp [le64_length]),
        readU64At_head _ _ (le64_length _), leDec_le64_eq _ hs]
  · rw [readU64At_peel [0x50, 0x4b, 0x06, 0x06] _ 44 48 (by decide),
        readU64At_peel (le64 44) _ 36 44 (by simp [le64_length]),
        readU64At_peel [20, 0] _ 34 36 (by decide),
        readU64At_peel [20, 0] _ 32 34 (by decide),
        readU64At_peel (le32 0) _ 28 32 (by simp [le32_length]),
        readU64At_peel (le32 0) _ 24 28 (by simp [le32_length]),
        readU64At_peel (le64 n) _ 16 24 (by simp [le64_length]),
        readU64At_peel (le64 n) _ 8 16 (by simp [le64_length]),
        readU64At_peel (le64 s) _ 0 8 (by simp [le64_length]),
        readU64At_head _ _ (le64_length _), leDec_le64_eq _ ho]

/-- C7: `finish` emits the ZIP64 EOCD record and locator exactly when the
entry count exceeds 65535 or the central-directory size or offset exceeds
`u32::MAX` (trailer of 98 bytes starting with the ZIP64 EOCD signature and
carrying the true 64-bit values, the locator signature following at 56);
otherwise the trailer is the bare 22-byte classic EOCD.  In both cases the
classic EOCD closes the trailer, its count/size/offset fields holding the
sentinel exactly when the true value exceeds the 16-bit or 32-bit limit. -/
theorem finishTrailer_zip64 (n s o : Nat) (hn : n < 18446744073709551616)
    (hs : s < 18446744073709551616) (ho : o < 18446744073709551616) :
    (if n > 0xFFFF ∨ s > 0xFFFFFFFF ∨ o > 0xFFFFFFFF then
       (finishTrailer n s o).length = 98 ∧
       readU32At (finishTrailer n s o) 0 = some 0x06064b50 ∧
       readU64At (finishTrailer n s o) 24 = some n ∧
       readU64At (finishTrailer n s o) 32 = some n ∧
       readU64At (finishTrailer n s o) 40 = some s ∧
       readU64At (finishTrailer n s o) 48 = some o ∧
       readU32At (finishTrailer n s o) 56 = some 0x07064b50
     else (finishTrailer n s o).length = 22) ∧
    readU32At (finishTrailer n s o) ((finishTrailer n s o).length - 22) =
      some 0x06054b50 ∧
    readU16At (finishTrailer n s o) ((finishTrailer n s o).length - 22 + 8) =
      some (if n > 0xFFFF then 0xFFFF else n) ∧
    readU16At (finishTrailer n s o) ((finishTrailer n s o).length - 22 + 10) =
      some (if n > 0xFFFF then 0xFFFF else n) ∧
    readU32At (finishTrailer n s o) ((finishTrailer n s o).length - 22 + 12) =
      some (if s > 0xFFFFFFFF then 0xFFFFFFFF else s) ∧
    readU32At (finishTrailer n s o) ((finishTrailer n s o).length - 22 + 16) =
      some (if o > 0xFFFFFFFF then 0xFFFFFFFF else o) := by
  have hclassic := classicEocd_fields n s o
  by_cases hcase : n > 0xFFFF ∨ s > 0xFFFFFFFF ∨ o > 0xFFFFFFFF
  · have htrailer : finishTrailer n s o =
        zip64EocdRecord n s o ++ (zip64EocdLocator (o + s) ++ classicEocd n s o) := by
      unfold finishTrailer
      rw [if_pos hcase, List.append_assoc]
    have hlen : (finishTrailer n s o).length = 98 := by
      rw [htrailer]
      simp [zip64EocdRecord_length, zip64EocdLocator_length, classicEocd_length]
    have hz := zip64EocdRecord_fields n s o hn hs ho
      (zip64EocdLocator (o + s) ++ classicEocd n s o)
    have hpeel76 : ∀ k, readU16At (finishTrailer n s o) (76 + k) =
        readU16At (classicEocd n s o) k := by
      intro k
      rw [htrailer,
        readU16At_peel (zip64EocdRecord n s o) _ (20 + k) (76 + k)
          (by rw [zip64EocdRecord_length]; omega),
        readU16At_peel (zip64EocdLocator (o + s)) _ k (20 + k)
          (by rw [zip64EocdLocator_length])]
    have hpeel76e : ∀ k, readU32At (finishTrailer n s o) (76 + k) =
        readU32At (classicEocd n s o) k := by
      intro k
      rw [htrailer,
        readU32At_peel (zip64EocdRecord n s o) _ (20 + k) (76 + k)
          (by rw [zip64EocdRecord_length]; omega),
        readU32At_peel (zip64EocdLocator (o + s)) _ k (20 + k)
          (by rw [zip64EocdLocator_length])]
    refine ⟨?_, ?_, ?_, ?_, ?_, ?_⟩
    · rw [if_pos hcase]
      refine ⟨hlen, ?_, ?_, ?_, ?_, ?_, ?_⟩
      · rw [htrailer]; exact hz.1
      · rw [htrailer]; exact hz.2.1
      · rw [htrailer]; exact hz.2.2.1
      · rw [htrailer]; exact hz.2.2.2.1
      · rw [htrailer]; exact hz.2.2.2.2
      · rw [htrailer,
          readU32At_peel (zip64EocdRecord n s o) _ 0 56 (by rw [zip64EocdRecord_length])]
        unfold zip64EocdLocator
        simp only [List.append_assoc]
        rw [readU32At_head [0x50, 0x4b, 0x06, 0x07] _ (by decide)]
        decide
    · rw [hlen]
      show readU32At (finishTrailer n s o) (76 + 0) = _
      rw [hpeel76e 0]
      exact hclassic.1
    · rw [hlen]
      show readU16At (finishTrailer n s o) (76 + 8) = _
      rw [hpeel76 8]
      exact hclassic.2.1
    · rw [hlen]
      show readU16At (finishTrailer n s o) (76 + 10) = _
      rw [hpeel76 10]
      exact hclassic.2.2.1
    · rw [hlen]
      show readU32At (finishTrailer n s o) (76 + 12) = _
      rw [hpeel76e 12]
      exact hclassic.2.2.2.1
    · rw [hlen]
      show readU32At (finishTrailer n s o) (76 + 16) = _
      rw [hpeel76e 16]
      exact hclassic.2.2.2.2
  · have htrailer : finishTrailer n s o = classicEocd n s o := by
      unfold finishTrailer
      rw [if_neg hcase]
      simp
    have hlen : (finishTrailer n s o).length = 22 := by
      rw [htrailer, classicEocd_length]
    refine ⟨?_, ?_, ?_, ?_, ?_, ?_⟩
    · rw [if_neg hcase]; exact hlen
    · rw [hlen, htrailer]; simpa using hclassic.1
    · rw [hlen, htrailer]; simpa using hclassic.2.1
    · rw [hlen, htrailer]; simpa using hclassic.2.2.1
    · rw [hlen, htrailer]; simpa using hclassic.2.2.2.1
    · rw [hlen, htrailer]; simpa using hclassic.2.2.2.2

/-- C7 witness: the trailer theorem at one entry, a 51-byte central
directory at offset 0 — no ZIP64 structures, classic EOCD only. -/
theorem finishTrailer_zip64_witness :
    (finishTrailer 1 51 0).length = 22 ∧
    readU32At (finishTrailer 1 51 0) 0 = some 0x06054b50 := by
  have h := finishTrailer_zip64 1 51 0 (by decide) (by decide) (by decide)
  rw [if_neg (by decide)] at h
  refine ⟨h.1, ?_⟩
  have := h.2.1
  rw [h.1] at this
  simpa using this

/-! ## C6 — per-field ZIP64 promotion and recovery -/

theorem seg_at (pre x rest : List Nat) (p n : Nat) (hp : pre.length = p) (hx : x.length = n) :
    ((pre ++ (x ++ rest)).drop p).take n = x := by
  subst hp
  subst hx
  rw [List.drop_left, List.take_left]

theorem zip64_data_length (us cs off : Nat) :
    ((if us > 0xFFFFFFFF then le64 us else []) ++
      (if cs > 0xFFFFFFFF then le64 cs else []) ++
      (if off > 0xFFFFFFFF then le64 off else [])).length =
    (if us > 0xFFFFFFFF then 8 else 0) + (if cs > 0xFFFFFFFF then 8 else 0) +
      (if off > 0xFFFFFFFF then 8 else 0) := by
  split_ifs <;> simp [le64_length]

theorem zip64ExtraField_length_le (us cs off : Nat) :
    (zip64ExtraField us cs off).length ≤ 28 := by
  unfold zip64ExtraField
  split
  · simp only [List.length_append, le16_length]
    split_ifs <;> simp [le64_length]
  · simp

theorem u64Slice_peel (x rest : List Nat) (p q : Nat) (hx : x.length + p = q) :
    u64Slice (x ++ rest) q = u64Slice rest p := by
  subst hx
  unfold u64Slice
  have hdrop : (x ++ rest).drop (x.length + p) = rest.drop p := by
    rw [List.drop_append_eq_append_drop, List.drop_eq_nil_of_le (by omega), List.nil_append]
    congr 1
    omega
  rw [hdrop]

theorem u64Slice_head (x rest : List Nat) (hx : x.length = 8) :
    u64Slice (x ++ rest) 0 = leDec x := by
  unfold u64Slice
  rw [List.drop_zero, ← hx, List.take_left]

theorem u64Slice_all (x : List Nat) (hx : x.length = 8) :
    u64Slice x 0 = leDec x := by
  unfold u64Slice
  rw [List.drop_zero, ← hx, List.take_length]

/-- The ZIP64 extra-field walk undoes the writer's promotion: on the
writer's extra field, starting from the classic slots, it recovers the three
true values — provided no value is exactly `0xFFFFFFFF`. -/
theorem parseZip64Loop_spec (us cs off : Nat)
    (hus : us < 18446744073709551616) (hcs : cs < 18446744073709551616)
    (hoff : off < 18446744073709551616)
    (husn : us ≠ 0xFFFFFFFF) (hcsn : cs ≠ 0xFFFFFFFF) (hoffn : off ≠ 0xFFFFFFFF)
    (hany : us > 0xFFFFFFFF ∨ cs > 0xFFFFFFFF ∨ off > 0xFFFFFFFF) :
    parseZip64Loop (zip64ExtraField us cs off)
      (if us > 0xFFFFFFFF then 0xFFFFFFFF else us)
      (if cs > 0xFFFFFFFF then 0xFFFFFFFF else cs)
      (if off > 0xFFFFFFFF then 0xFFFFFFFF else off) 0 = (us, cs, off) := by
  by_cases h1 : us > 0xFFFFFFFF <;> by_cases h2 : cs > 0xFFFFFFFF <;>
    by_cases h3 : off > 0xFFFFFFFF
  · -- promoted: us, cs, off
    rw [if_pos h1, if_pos h2, if_pos h3]
    have hbuf : zip64ExtraField us cs off =
        [1, 0, 24, 0] ++ (le64 us ++ (le64 cs ++ le64 off)) := by
      simp [zip64ExtraField, h1, h2, h3, le64_length, le16]
    have hu : u64Slice ([1, 0, 24, 0] ++ (le64 us ++ (le64 cs ++ le64 off))) 4 = us := by
      unfold u64Slice
      rw [seg_at [1, 0, 24, 0] (le64 us) _ 4 8 rfl (le64_length us), leDec_le64_eq us hus]
    have hc : u64Slice ([1, 0, 24, 0] ++ (le64 us ++ (le64 cs ++ le64 off))) 12 = cs := by
      rw [u64Slice_peel [1, 0, 24, 0] _ 8 12 (by decide),
          u64Slice_peel (le64 us) _ 0 8 (by simp [le64_length]),
          u64Slice_head _ _ (le64_length cs), leDec_le64_eq cs hcs]
    have ho2 : u64Slice ([1, 0, 24, 0] ++ (le64 us ++ (le64 cs ++ le64 off))) 20 = off := by
      rw [u64Slice_peel [1, 0, 24, 0] _ 16 20 (by decide),
          u64Slice_peel (le64 us) _ 8 16 (by simp [le64_length]),
          u64Slice_peel (le64 cs) _ 0 8 (by simp [le64_length]),
          u64Slice_all _ (le64_length off), leDec_le64_eq off hoff]
    have hid : leDec ((([1, 0, 24, 0] ++ (le64 us ++ (le64 cs ++ le64 off))).drop 0).take 2) = 1 := by
      rw [List.drop_zero]
      norm_num [leDec]
    have hdl : leDec ((([1, 0, 24, 0] ++ (le64 us ++ (le64 cs ++ le64 off))).drop 2).take 2) = 24 := by
      norm_num [leDec]
    rw [hbuf]
    unfold parseZip64Loop parseZip64Go
    rw [dif_pos (by simp [le64_length])]
    simp only [hid, hdl]
    rw [if_neg (by simp [le64_length])]
    show (u64Slice ([1, 0, 24, 0] ++ (le64 us ++ (le64 cs ++ le64 off))) 4,
          u64Slice ([1, 0, 24, 0] ++ (le64 us ++ (le64 cs ++ le64 off))) 12,
          u64Slice ([1, 0, 24, 0] ++ (le64 us ++ (le64 cs ++ le64 off))) 20) = (us, cs, off)
    rw [hu, hc, ho2]
  · -- promoted: us, cs
    rw [if_pos h1, if_pos h2, if_neg h3]
    have hbuf : zip64ExtraField us cs off =
        [1, 0, 16, 0] ++ (le64 us ++ le64 cs) := by
      simp [zip64ExtraField, h1, h2, h3, le64_length, le16]
    have hu : u64Slice ([1, 0, 16, 0] ++ (le64 us ++ le64 cs)) 4 = us := by
      unfold u64Slice
      rw [seg_at [1, 0, 16, 0] (le64 us) _ 4 8 rfl (le64_length us), leDec_le64_eq us hus]
    have hc : u64Slice ([1, 0, 16, 0] ++ (le64 us ++ le64 cs)) 12 = cs := by
      rw [u64Slice_peel [1, 0, 16, 0] _ 8 12 (by decide),
          u64Slice_peel (le64 us) _ 0 8 (by simp [le64_length]),
          u64Slice_all _ (le64_length cs), leDec_le64_eq cs hcs]
    have hid : leDec ((([1, 0, 16, 0] ++ (le64 us ++ le64 cs)).drop 0).take 2) = 1 := by
      rw [List.drop_zero]
      norm_num [leDec]
    have hdl : leDec ((([1, 0, 16, 0] ++ (le64 us ++ le64 cs)).drop 2).take 2) = 16 := by
      norm_num [leDec]
    rw [hbuf]
    unfold parseZip64Loop parseZip64Go
    rw [dif_pos (by simp [le64_length])]
    simp only [hid, hdl]
    rw [if_neg (by simp [le64_length])]
    simp only [hoffn, show ((16 : Nat) + 8 ≤ 16) = False by simp, and_false, if_false]
    show (u64Slice ([1, 0, 16, 0] ++ (le64 us ++ le64 cs)) 4,
          u64Slice ([1, 0, 16, 0] ++ (le64 us ++ le64 cs)) 12, off) = (us, cs, off)
    rw [hu, hc]
  · -- promoted: us, off
    rw [if_pos h1, if_neg h2, if_pos h3]
    have hbuf : zip64ExtraField us cs off =
        [1, 0, 16, 0] ++ (le64 us ++ le64 off) := by
      simp [zip64ExtraField, h1, h2, h3, le64_length, le16]
    have hu : u64Slice ([1, 0, 16, 0] ++ (le64 us ++ le64 off)) 4 = us := by
      unfold u64Slice
      rw [seg_at [1, 0, 16, 0] (le64 us) _ 4 8 rfl (le64_length us), leDec_le64_eq us hus]
    have ho2 : u64Slice ([1, 0, 16, 0] ++ (le64 us ++ le64 off)) 12 = off := by
      rw [u64Slice_peel [1, 0, 16, 0] _ 8 12 (by decide),
          u64Slice_peel (le64 us) _ 0 8 (by simp [le64_length]),
          u64Slice_all _ (le64_length off), leDec_le64_eq off hoff]
    have hid : leDec ((([1, 0, 16, 0] ++ (le64 us ++ le64 off)).drop 0).take 2) = 1 := by
      rw [List.drop_zero]
      norm_num [leDec]
    have hdl : leDec ((([1, 0, 16, 0] ++ (le64 us ++ le64 off)).drop 2).take 2) = 16 := by
      norm_num [leDec]
    rw [hbuf]
    unfold parseZip64Loop parseZip64Go
    rw [dif_pos (by simp [le64_length])]
    simp only [hid, hdl]
    rw [if_neg (by simp [le64_length])]
    simp only [hcsn, false_and, if_false]
    show (u64Slice ([1, 0, 16, 0] ++ (le64 us ++ le64 off)) 4, cs,
          u64Slice ([1, 0, 16, 0] ++ (le64 us ++ le64 off)) 12) = (us, cs, off)
    rw [hu, ho2]
  · -- promoted: us only
    rw [if_pos h1, if_neg h2, if_neg h3]
    have hbuf : zip64ExtraField us cs off = [1, 0, 8, 0] ++ le64 us := by
      simp [zip64ExtraField, h1, h2, h3, le64_length, le16]
    have hu : u64Slice ([1, 0, 8, 0] ++ le64 us) 4 = us := by
      rw [u64Slice_peel [1, 0, 8, 0] _ 0 4 (by decide),
          u64Slice_all _ (le64_length us), leDec_le64_eq us hus]
    have hid : leDec ((([1, 0, 8, 0] ++ le64 us).drop 0).take 2) = 1 := by
      rw [List.drop_zero]
      norm_num [leDec]
    have hdl : leDec ((([1, 0, 8, 0] ++ le64 us).drop 2).take 2) = 8 := by
      norm_num [leDec]
    rw [hbuf]
    unfold parseZip64Loop parseZip64Go
    rw [dif_pos (by simp [le64_length])]
    simp only [hid, hdl]
    rw [if_neg (by simp [le64_length])]
    simp only [hcsn, hoffn, false_and, and_false, if_false,
      show ((8 : Nat) + 8 ≤ 8) = False by simp]
    show (u64Slice ([1, 0, 8, 0] ++ le64 us) 4, cs, off) = (us, cs, off)
    rw [hu]
  · -- promoted: cs, off
    rw [if_neg h1, if_pos h2, if_pos h3]
    have hbuf : zip64ExtraField us cs off =
        [1, 0, 16, 0] ++ (le64 cs ++ le64 off) := by
      simp [zip64ExtraField, h1, h2, h3, le64_length, le16]
    have hc : u64Slice ([1, 0, 16, 0] ++ (le64 cs ++ le64 off)) 4 = cs := by
      unfold u64Slice
      rw [seg_at [1, 0, 16, 0] (le64 cs) _ 4 8 rfl (le64_length cs), leDec_le64_eq cs hcs]
    have ho2 : u64Slice ([1, 0, 16, 0] ++ (le64 cs ++ le64 off)) 12 = off := by
      rw [u64Slice_peel [1, 0, 16, 0] _ 8 12 (by decide),
          u64Slice_peel (le64 cs) _ 0 8 (by simp [le64_length]),
          u64Slice_all _ (le64_length off), leDec_le64_eq off hoff]
    have hid : leDec ((([1, 0, 16, 0] ++ (le64 cs ++ le64 off)).drop 0).take 2) = 1 := by
      rw [List.drop_zero]
      norm_num [leDec]
    have hdl : leDec ((([1, 0, 16, 0] ++ (le64 cs ++ le64 off)).drop 2).take 2) = 16 := by
      norm_num [leDec]
    rw [hbuf]
    unfold parseZip64Loop parseZip64Go
    rw [dif_pos (by simp [le64_length])]
    simp only [hid, hdl]
    rw [if_neg (by simp [le64_length])]
    simp only [husn, false_and, if_false]
    show (us, u64Slice ([1, 0, 16, 0] ++ (le64 cs ++ le64 off)) 4,
          u64Slice ([1, 0, 16, 0] ++ (le64 cs ++ le64 off)) 12) = (us, cs, off)
    rw [hc, ho2]
  · -- promoted: cs only
    rw [if_neg h1, if_pos h2, if_neg h3]
    have hbuf : zip64ExtraField us cs off = [1, 0, 8, 0] ++ le64 cs := by
      simp [zip64ExtraField, h1, h2, h3, le64_length, le16]
    have hc : u64Slice ([1, 0, 8, 0] ++ le64 cs) 4 = cs := by
      rw [u64Slice_peel [1, 0, 8, 0] _ 0 4 (by decide),
          u64Slice_all _ (le64_length cs), leDec_le64_eq cs hcs]
    have hid : leDec ((([1, 0, 8, 0] ++ le64 cs).drop 0).take 2) = 1 := by
      rw [List.drop_zero]
      norm_num [leDec]
    have hdl : leDec ((([1, 0, 8, 0] ++ le64 cs).drop 2).take 2) = 8 := by
      norm_num [leDec]
    rw [hbuf]
    unfold parseZip64Loop parseZip64Go
    rw [dif_pos (by simp [le64_length])]
    simp only [hid, hdl]
    rw [if_neg (by simp [le64_length])]
    simp only [husn, hoffn, false_and, and_false, if_false,
      show ((8 : Nat) + 8 ≤ 8) = False by simp]
    show (us, u64Slice ([1, 0, 8, 0] ++ le64 cs) 4, off) = (us, cs, off)
    rw [hc]
  · -- promoted: off only
    rw [if_neg h1, if_neg h2, if_pos h3]
    have hbuf : zip64ExtraField us cs off = [1, 0, 8, 0] ++ le64 off := by
      simp [zip64ExtraField, h1, h2, h3, le64_length, le16]
    have ho2 : u64Slice ([1, 0, 8, 0] ++ le64 off) 4 = off := by
      rw [u64Slice_peel [1, 0, 8, 0] _ 0 4 (by decide),
          u64Slice_all _ (le64_length off), leDec_le64_eq off hoff]
    have hid : leDec ((([1, 0, 8, 0] ++ le64 off).drop 0).take 2) = 1 := by
      rw [List.drop_zero]
      norm_num [leDec]
    have hdl : leDec ((([1, 0, 8, 0] ++ le64 off).drop 2).take 2) = 8 := by
      norm_num [leDec]
    rw [hbuf]
    unfold parseZip64Loop parseZip64Go
    rw [dif_pos (by simp [le64_length])]
    simp only [hid, hdl]
    rw [if_neg (by simp [le64_length])]
    simp only [husn, hcsn, false_and, if_false]
    show (us, cs, u64Slice ([1, 0, 8, 0] ++ le64 off) 4) = (us, cs, off)
    rw [ho2]
  · exact absurd hany (by push_neg; exact ⟨by omega, by omega, by omega⟩)

/-- The central-directory record rewritten with the sentinel choices pushed
into the encoded values. -/
theorem cdRecordBytes_reshape (e : WEntry) :
    cdRecordBytes e =
      [0x50, 0x4b, 0x01, 0x02] ++ [20, 0] ++ [20, 0] ++ [8, 0] ++
        le16 e.compressionMethod ++ [0, 0, 0, 0] ++ le32 e.crc32 ++
        le32 (if e.compressedSize > 0xFFFFFFFF then 0xFFFFFFFF else e.compressedSize) ++
        le32 (if e.uncompressedSize > 0xFFFFFFFF then 0xFFFFFFFF
              else e.uncompressedSize) ++
        le16 (e.name.length % 65536) ++
        le16 ((zip64ExtraField e.uncompressedSize e.compressedSize
                e.localHeaderOffset).length % 65536) ++
        le16 0 ++ le16 0 ++ le16 0 ++ le32 0 ++
        le32 (if e.localHeaderOffset > 0xFFFFFFFF then 0xFFFFFFFF
              else e.localHeaderOffset) ++
        e.name ++ zip64ExtraField e.uncompressedSize e.compressedSize
          e.localHeaderOffset := by
  simp only [cdRecordBytes]
  split_ifs <;> rfl

/-- Parsing one central-directory record that the writer emitted, at its
exact position, recovers the recorded entry and consumes exactly the
record's bytes — provided none of the three promotable values is exactly
`0xFFFFFFFF` (see the C6 counterexample for what happens there). -/
theorem parseCdRecord_spec (file before after : List Nat) (e : WEntry)
    (hfile : file = before ++ (cdRecordBytes e ++ after))
    (hname : e.name.length < 65536)
    (hmeth : e.compressionMethod < 65536)
    (hcs : e.compressedSize < 18446744073709551616)
    (hus : e.uncompressedSize < 18446744073709551616)
    (hoff : e.localHeaderOffset < 18446744073709551616)
    (hcsn : e.compressedSize ≠ 0xFFFFFFFF)
    (husn : e.uncompressedSize ≠ 0xFFFFFFFF)
    (hoffn : e.localHeaderOffset ≠ 0xFFFFFFFF) :
    parseCdRecord file before.length =
      .ok (some ({ name := e.name, compressedSize := e.compressedSize,
                   uncompressedSize := e.uncompressedSize,
                   compressionMethod := e.compressionMethod,
                   offset := e.localHeaderOffset },
                 before.length + 46 + e.name.length +
                   (zip64ExtraField e.uncompressedSize e.compressedSize
                     e.localHeaderOffset).length)) := by
  subst hfile
  set extraE := zip64ExtraField e.uncompressedSize e.compressedSize e.localHeaderOffset
    with hextraE
  set csSlot := (if e.compressedSize > 0xFFFFFFFF then 0xFFFFFFFF else e.compressedSize)
    with hcsSlotDef
  set usSlot := (if e.uncompressedSize > 0xFFFFFFFF then 0xFFFFFFFF
    else e.uncompressedSize) with husSlotDef
  set offSlot := (if e.localHeaderOffset > 0xFFFFFFFF then 0xFFFFFFFF
    else e.localHeaderOffset) with hoffSlotDef
  have hchain : cdRecordBytes e ++ after =
      [0x50, 0x4b, 0x01, 0x02] ++ ([20, 0] ++ ([20, 0] ++ ([8, 0] ++
        (le16 e.compressionMethod ++ ([0, 0, 0, 0] ++ (le32 e.crc32 ++
        (le32 csSlot ++ (le32 usSlot ++ (le16 (e.name.length % 65536) ++
        (le16 (extraE.length % 65536) ++
        (le16 0 ++ (le16 0 ++ (le16 0 ++ (le32 0 ++ (le32 offSlot ++
        (e.name ++ (extraE ++ after))))))))))))))))) := by
    rw [cdRecordBytes_reshape]
    simp only [List.append_assoc, hextraE, hcsSlotDef, husSlotDef, hoffSlotDef]
  have hcsSlotLt : csSlot < 4294967296 := by rw [hcsSlotDef]; split <;> omega
  have husSlotLt : usSlot < 4294967296 := by rw [husSlotDef]; split <;> omega
  have hoffSlotLt : offSlot < 4294967296 := by rw [hoffSlotDef]; split <;> omega
  have helLt : extraE.length < 65536 :=
    lt_of_le_of_lt (zip64ExtraField_length_le _ _ _) (by norm_num)
  have hsig : readU32At (before ++ (cdRecordBytes e ++ after)) before.length = some 0x02014b50 := by
    rw [readU32At_peel before _ 0 before.length (by omega), hchain,
        readU32At_head [0x50, 0x4b, 0x01, 0x02] _ (by decide)]
    decide
  have hmethodR : readU16At (before ++ (cdRecordBytes e ++ after)) (before.length + 10) = some e.compressionMethod := by
    rw [readU16At_peel before _ (10) (before.length + 10) (by omega), hchain,
        readU16At_peel [0x50, 0x4b, 0x01, 0x02] _ (6) (10) (by simp only [le16_length, le32_length, List.length_cons, List.length_nil] <;> omega),
        readU16At_peel [20, 0] _ (4) (6) (by simp only [le16_length, le32_length, List.length_cons, List.length_nil] <;> omega),
        readU16At_peel [20, 0] _ (2) (4) (by simp only [le16_length, le32_length, List.length_cons, List.length_nil] <;> omega),
        readU16At_peel [8, 0] _ (0) (2) (by simp only [le16_length, le32_length, List.length_cons, List.length_nil] <;> omega),
        readU16At_head (le16 e.compressionMethod) _ (le16_length _), leDec_le16_eq _ hmeth]
  have hcsR : readU32At (before ++ (cdRecordBytes e ++ after)) (before.length + 20) = some csSlot := by
    rw [readU32At_peel before _ (20) (before.length + 20) (by omega), hchain,
        readU32At_peel [0x50, 0x4b, 0x01, 0x02] _ (16) (20) (by simp only [le16_length, le32_length, List.length_cons, List.length_nil] <;> omega),
        readU32At_peel [20, 0] _ (14) (16) (by simp only [le16_length, le32_length, List.length_cons, List.length_nil] <;> omega),
        readU32At_peel [20, 0] _ (12) (14) (by simp only [le16_length, le32_length, List.length_cons, List.length_nil] <;> omega),
        readU32At_peel [8, 0] _ (10) (12) (by simp only [le16_length, le32_length, List.length_cons, List.length_nil] <;> omega),
        readU32At_peel (le16 e.compressionMethod) _ (8) (10) (by simp only [le16_length, le32_length, List.length_cons, List.length_nil] <;> omega),
        readU32At_peel [0, 0, 0, 0] _ (4) (8) (by simp only [le16_length, le32_length, List.length_cons, List.length_nil] <;> omega),
        readU32At_peel (le32 e.crc32) _ (0) (4) (by simp only [le16_length, le32_length, List.length_cons, List.length_nil] <;> omega),
        readU32At_head (le32 csSlot) _ (le32_length _), leDec_le32_eq _ hcsSlotLt]
  have husR : readU32At (before ++ (cdRecordBytes e ++ after)) (before.length + 24) = some usSlot := by
    rw [readU32At_peel before _ (24) (before.length + 24) (by omega), hchain,
        readU32At_peel [0x50, 0x4b, 0x01, 0x02] _ (20) (24) (by simp only [le16_length, le32_length, List.length_cons, List.length_nil] <;> omega),
        readU32At_peel [20, 0] _ (18) (20) (by simp only [le16_length, le32_length, List.length_cons, List.length_nil] <;> omega),
        readU32At_peel [20, 0] _ (16) (18) (by simp only [le16_length, le32_length, List.length_cons, List.length_nil] <;> omega),
        readU32At_peel [8, 0] _ (14) (16) (by simp only [le16_length, le32_length, List.length_cons, List.length_nil] <;> omega),
        readU32At_peel (le16 e.compressionMethod) _ (12) (14) (by simp only [le16_length, le32_length, List.length_cons, List.length_nil] <;> omega),
        readU32At_peel [0, 0, 0, 0] _ (8) (12) (by simp only [le16_length, le32_length, List.length_cons, List.length_nil] <;> omega),
        readU32At_peel (le32 e.crc32) _ (4) (8) (by simp only [le16_length, le32_length, List.length_cons, List.length_nil] <;> omega),
        readU32At_peel (le32 csSlot) _ (0) (4) (by simp only [le16_length, le32_length, List.length_cons, List.length_nil] <;> omega),
        readU32At_head (le32 usSlot) _ (le32_length _), leDec_le32_eq _ husSlotLt]
  have hnlR : readU16At (before ++ (cdRecordBytes e ++ after)) (before.length + 28) = some e.name.length := by
    rw [readU16At_peel before _ (28) (before.length + 28) (by omega), hchain,
        readU16At_peel [0x50, 0x4b, 0x01, 0x02] _ (24) (28) (by simp only [le16_length, le32_length, List.length_cons, List.length_nil] <;> omega),
        readU16At_peel [20, 0] _ (22) (24) (by simp only [le16_length, le32_length, List.length_cons, List.length_nil] <;> omega),
        readU16At_peel [20, 0] _ (20) (22) (by simp only [le16_length, le32_length, List.length_cons, List.length_nil] <;> omega),
        readU16At_peel [8, 0] _ (18) (20) (by simp only [le16_length, le32_length, List.length_cons, List.length_nil] <;> omega),
        readU16At_peel (le16 e.compressionMethod) _ (16) (18) (by simp only [le16_length, le32_length, List.length_cons, List.length_nil] <;> omega),
        readU16At_peel [0, 0, 0, 0] _ (12) (16) (by simp only [le16_length, le32_length, List.length_cons, List.length_nil] <;> omega),
        readU16At_peel (le32 e.crc32) _ (8) (12) (by simp only [le16_length, le32_length, List.length_cons, List.length_nil] <;> omega),
        readU16At_peel (le32 csSlot) _ (4) (8) (by simp only [le16_length, le32_length, List.length_cons, List.length_nil] <;> omega),
        readU16At_peel (le32 usSlot) _ (0) (4) (by simp only [le16_length, le32_length, List.length_cons, List.length_nil] <;> omega),
        readU16At_head (le16 (e.name.length % 65536)) _ (le16_length _), leDec_le16]
    congr 1
    omega
  have helR : readU16At (before ++ (cdRecordBytes e ++ after)) (before.length + 30) = some extraE.length := by
    rw [readU16At_peel before _ (30) (before.length + 30) (by omega), hchain,
        readU16At_peel [0x50, 0x4b, 0x01, 0x02] _ (26) (30) (by simp only [le16_length, le32_length, List.length_cons, List.length_nil] <;> omega),
        readU16At_peel [20, 0] _ (24) (26) (by simp only [le16_length, le32_length, List.length_cons, List.length_nil] <;> omega),
        readU16At_peel [20, 0] _ (22) (24) (by simp only [le16_length, le32_length, List.length_cons, List.length_nil] <;> omega),
        readU16At_peel [8, 0] _ (20) (22) (by simp only [le16_length, le32_length, List.length_cons, List.length_nil] <;> omega),
        readU16At_peel (le16 e.compressionMethod) _ (18) (20) (by simp only [le16_length, le32_length, List.length_cons, List.length_nil] <;> omega),
        readU16At_peel [0, 0, 0, 0] _ (14) (18) (by simp only [le16_length, le32_length, List.length_cons, List.length_nil] <;> omega),
        readU16At_peel (le32 e.crc32) _ (10) (14) (by simp only [le16_length, le32_length, List.length_cons, List.length_nil] <;> omega),
        readU16At_peel (le32 csSlot) _ (6) (10) (by simp only [le16_length, le32_length, List.length_cons, List.length_nil] <;> omega),
        readU16At_peel (le32 usSlot) _ (2) (6) (by simp only [le16_length, le32_length, List.length_cons, List.length_nil] <;> omega),
        readU16At_peel (le16 (e.name.length % 65536)) _ (0) (2) (by simp only [le16_length, le32_length, List.length_cons, List.length_nil] <;> omega),
        readU16At_head (le16 (extraE.length % 65536)) _ (le16_length _), leDec_le16]
    congr 1
    omega
  have hclR : readU16At (before ++ (cdRecordBytes e ++ after)) (before.length + 32) = some 0 := by
    rw [readU16At_peel before _ (32) (before.length + 32) (by omega), hchain,
        readU16At_peel [0x50, 0x4b, 0x01, 0x02] _ (28) (32) (by simp only [le16_length, le32_length, List.length_cons, List.length_nil] <;> omega),
        readU16At_peel [20, 0] _ (26) (28) (by simp only [le16_length, le32_length, List.length_cons, List.length_nil] <;> omega),
        readU16At_peel [20, 0] _ (24) (26) (by simp only [le16_length, le32_length, List.length_cons, List.length_nil] <;> omega),
        readU16At_peel [8, 0] _ (22) (24) (by simp only [le16_length, le32_length, List.length_cons, List.length_nil] <;> omega),
        readU16At_peel (le16 e.compressionMethod) _ (20) (22) (by simp only [le16_length, le32_length, List.length_cons, List.length_nil] <;> omega),
        readU16At_peel [0, 0, 0, 0] _ (16) (20) (by simp only [le16_length, le32_length, List.length_cons, List.length_nil] <;> omega),
        readU16At_peel (le32 e.crc32) _ (12) (16) (by simp only [le16_length, le32_length, List.length_cons, List.length_nil] <;> omega),
        readU16At_peel (le32 csSlot) _ (8) (12) (by simp only [le16_length, le32_length, List.length_cons, List.length_nil] <;> omega),
        readU16At_peel (le32 usSlot) _ (4) (8) (by simp only [le16_length, le32_length, List.length_cons, List.length_nil] <;> omega),
        readU16At_peel (le16 (e.name.length % 65536)) _ (2) (4) (by simp only [le16_length, le32_length, List.length_cons, List.length_nil] <;> omega),
        readU16At_peel (le16 (extraE.length % 65536)) _ (0) (2) (by simp only [le16_length, le32_length, List.length_cons, List.length_nil] <;> omega),
        readU16At_head (le16 0) _ (le16_length _)]
    decide
  have hoffR : readU32At (before ++ (cdRecordBytes e ++ after)) (before.length + 42) = some offSlot := by
    rw [readU32At_peel before _ (42) (before.length + 42) (by omega), hchain,
        readU32At_peel [0x50, 0x4b, 0x01, 0x02] _ (38) (42) (by simp only [le16_length, le32_length, List.length_cons, List.length_nil] <;> omega),
        readU32At_peel [20, 0] _ (36) (38) (by simp only [le16_length, le32_length, List.length_cons, List.length_nil] <;> omega),
        readU32At_peel [20, 0] _ (34) (36) (by simp only [le16_length, le32_length, List.length_cons, List.length_nil] <;> omega),
        readU32At_peel [8, 0] _ (32) (34) (by simp only [le16_length, le32_length, List.length_cons, List.length_nil] <;> omega),
        readU32At_peel (le16 e.compressionMethod) _ (30) (32) (by simp only [le16_length, le32_length, List.length_cons, List.length_nil] <;> omega),
        readU32At_peel [0, 0, 0, 0] _ (26) (30) (by simp only [le16_length, le32_length, List.length_cons, List.length_nil] <;> omega),
        readU32At_peel (le32 e.crc32) _ (22) (26) (by simp only [le16_length, le32_length, List.length_cons, List.length_nil] <;> omega),
        readU32At_peel (le32 csSlot) _ (18) (22) (by simp only [le16_length, le32_length, List.length_cons, List.length_nil] <;> omega),
        readU32At_peel (le32 usSlot) _ (14) (18) (by simp only [le16_length, le32_length, List.length_cons, List.length_nil] <;> omega),
        readU32At_peel (le16 (e.name.length % 65536)) _ (12) (14) (by simp only [le16_length, le32_length, List.length_cons, List.length_nil] <;> omega),
        readU32At_peel (le16 (extraE.length % 65536)) _ (10) (12) (by simp only [le16_length, le32_length, List.length_cons, List.length_nil] <;> omega),
        readU32At_peel (le16 0) _ (8) (10) (by simp only [le16_length, le32_length, List.length_cons, List.length_nil] <;> omega),
        readU32At_peel (le16 0) _ (6) (8) (by simp only [le16_length, le32_length, List.length_cons, List.length_nil] <;> omega),
        readU32At_peel (le16 0) _ (4) (6) (by simp only [le16_length, le32_length, List.length_cons, List.length_nil] <;> omega),
        readU32At_peel (le32 0) _ (0) (4) (by simp only [le16_length, le32_length, List.length_cons, List.length_nil] <;> omega),
        readU32At_head (le32 offSlot) _ (le32_length _), leDec_le32_eq _ hoffSlotLt]
  have hnameR : readBytesAt (before ++ (cdRecordBytes e ++ after)) (before.length + 46) e.name.length = some e.name := by
    rw [readBytesAt_peel' before _ 46 (before.length + 46) e.name.length (by omega), hchain,
        readBytesAt_peel' [0x50, 0x4b, 0x01, 0x02] _ 42 46 e.name.length (by simp only [le16_length, le32_length, List.length_cons, List.length_nil] <;> omega),
        readBytesAt_peel' [20, 0] _ 40 42 e.name.length (by simp only [le16_length, le32_length, List.length_cons, List.length_nil] <;> omega),
        readBytesAt_peel' [20, 0] _ 38 40 e.name.length (by simp only [le16_length, le32_length, List.length_cons, List.length_nil] <;> omega),
        readBytesAt_peel' [8, 0] _ 36 38 e.name.length (by simp only [le16_length, le32_length, List.length_cons, List.length_nil] <;> omega),
        readBytesAt_peel' (le16 e.compressionMethod) _ 34 36 e.name.length (by simp only [le16_length, le32_length, List.length_cons, List.length_nil] <;> omega),
        readBytesAt_peel' [0, 0, 0, 0] _ 30 34 e.name.length (by simp only [le16_length, le32_length, List.length_cons, List.length_nil] <;> omega),
        readBytesAt_peel' (le32 e.crc32) _ 26 30 e.name.length (by simp only [le16_length, le32_length, List.length_cons, List.length_nil] <;> omega),
        readBytesAt_peel' (le32 csSlot) _ 22 26 e.name.length (by simp only [le16_length, le32_length, List.length_cons, List.length_nil] <;> omega),
        readBytesAt_peel' (le32 usSlot) _ 18 22 e.name.length (by simp only [le16_length, le32_length, List.length_cons, List.length_nil] <;> omega),
        readBytesAt_peel' (le16 (e.name.length % 65536)) _ 16 18 e.name.length (by simp only [le16_length, le32_length, List.length_cons, List.length_nil] <;> omega),
        readBytesAt_peel' (le16 (extraE.length % 65536)) _ 14 16 e.name.length (by simp only [le16_length, le32_length, List.length_cons, List.length_nil] <;> omega),
        readBytesAt_peel' (le16 0) _ 12 14 e.name.length (by simp only [le16_length, le32_length, List.length_cons, List.length_nil] <;> omega),
        readBytesAt_peel' (le16 0) _ 10 12 e.name.length (by simp only [le16_length, le32_length, List.length_cons, List.length_nil] <;> omega),
        readBytesAt_peel' (le16 0) _ 8 10 e.name.length (by simp only [le16_length, le32_length, List.length_cons, List.length_nil] <;> omega),
        readBytesAt_peel' (le32 0) _ 4 8 e.name.length (by simp only [le16_length, le32_length, List.length_cons, List.length_nil] <;> omega),
        readBytesAt_peel' (le32 offSlot) _ 0 4 e.name.length (by simp only [le16_length, le32_length, List.length_cons, List.length_nil] <;> omega),
        readBytesAt_head e.name _ e.name.length rfl]
  have hextraR : readBytesAt (before ++ (cdRecordBytes e ++ after)) (before.length + 46 + e.name.length) extraE.length = some extraE := by
    rw [readBytesAt_peel' before _ (46 + e.name.length) (before.length + 46 + e.name.length) extraE.length (by omega), hchain,
        readBytesAt_peel' [0x50, 0x4b, 0x01, 0x02] _ (42 + e.name.length) (46 + e.name.length) extraE.length (by simp only [le16_length, le32_length, List.length_cons, List.length_nil] <;> omega),
        readBytesAt_peel' [20, 0] _ (40 + e.name.length) (42 + e.name.length) extraE.length (by simp only [le16_length, le32_length, List.length_cons, List.length_nil] <;> omega),
        readBytesAt_peel' [20, 0] _ (38 + e.name.length) (40 + e.name.length) extraE.length (by simp only [le16_length, le32_length, List.length_cons, List.length_nil] <;> omega),
        readBytesAt_peel' [8, 0] _ (36 + e.name.length) (38 + e.name.length) extraE.length (by simp only [le16_length, le32_length, List.length_cons, List.length_nil] <;> omega),
        readBytesAt_peel' (le16 e.compressionMethod) _ (34 + e.name.length) (36 + e.name.length) extraE.length (by simp only [le16_length, le32_length, List.length_cons, List.length_nil] <;> omega),
        readBytesAt_peel' [0, 0, 0, 0] _ (30 + e.name.length) (34 + e.name.length) extraE.length (by simp only [le16_length, le32_length, List.length_cons, List.length_nil] <;> omega),
        readBytesAt_peel' (le32 e.crc32) _ (26 + e.name.length) (30 + e.name.length) extraE.length (by simp only [le16_length, le32_length, List.length_cons, List.length_nil] <;> omega),
        readBytesAt_peel' (le32 csSlot) _ (22 + e.name.length) (26 + e.name.length) extraE.length (by simp only [le16_length, le32_length, List.length_cons, List.length_nil] <;> omega),
        readBytesAt_peel' (le32 usSlot) _ (18 + e.name.length) (22 + e.name.length) extraE.length (by simp only [le16_length, le32_length, List.length_cons, List.length_nil] <;> omega),
        readBytesAt_peel' (le16 (e.name.length % 65536)) _ (16 + e.name.length) (18 + e.name.length) extraE.length (by simp only [le16_length, le32_length, List.length_cons, List.length_nil] <;> omega),
        readBytesAt_peel' (le16 (extraE.length % 65536)) _ (14 + e.name.length) (16 + e.name.length) extraE.length (by simp only [le16_length, le32_length, List.length_cons, List.length_nil] <;> omega),
        readBytesAt_peel' (le16 0) _ (12 + e.name.length) (14 + e.name.length) extraE.length (by simp only [le16_length, le32_length, List.length_cons, List.length_nil] <;> omega),
        readBytesAt_peel' (le16 0) _ (10 + e.name.length) (12 + e.name.length) extraE.length (by simp only [le16_length, le32_length, List.length_cons, List.length_nil] <;> omega),
        readBytesAt_peel' (le16 0) _ (8 + e.name.length) (10 + e.name.length) extraE.length (by simp only [le16_length, le32_length, List.length_cons, List.length_nil] <;> omega),
        readBytesAt_peel' (le32 0) _ (4 + e.name.length) (8 + e.name.length) extraE.length (by simp only [le16_length, le32_length, List.length_cons, List.length_nil] <;> omega),
        readBytesAt_peel' (le32 offSlot) _ (0 + e.name.length) (4 + e.name.length) extraE.length (by simp only [le16_length, le32_length, List.length_cons, List.length_nil] <;> omega),
        readBytesAt_peel' e.name _ 0 (0 + e.name.length) extraE.length (by omega),
        readBytesAt_head extraE _ extraE.length rfl]
  unfold parseCdRecord
  rw [hsig]
  dsimp only
  rw [if_neg (by decide : ¬((0x02014b50 : Nat) ≠ 0x02014b50))]
  rw [hmethodR, hcsR, husR, hnlR, helR, hclR, hoffR]
  dsimp only
  rw [hnameR, hextraR]
  dsimp only
  by_cases hpro : e.uncompressedSize > 0xFFFFFFFF ∨ e.compressedSize > 0xFFFFFFFF ∨
      e.localHeaderOffset > 0xFFFFFFFF
  · have hcond : csSlot = 0xFFFFFFFF ∨ usSlot = 0xFFFFFFFF ∨ offSlot = 0xFFFFFFFF := by
      rcases hpro with h | h | h
      · right; left; rw [husSlotDef, if_pos h]
      · left; rw [hcsSlotDef, if_pos h]
      · right; right; rw [hoffSlotDef, if_pos h]
    rw [if_pos hcond, hextraE, husSlotDef, hcsSlotDef, hoffSlotDef,
      parseZip64Loop_spec e.uncompressedSize e.compressedSize e.localHeaderOffset
        hus hcs hoff husn hcsn hoffn hpro]
    dsimp only
    rw [← hextraE]
    try congr 2
    try omega
  · push_neg at hpro
    have hcond : ¬(csSlot = 0xFFFFFFFF ∨ usSlot = 0xFFFFFFFF ∨ offSlot = 0xFFFFFFFF) := by
      rw [hcsSlotDef, husSlotDef, hoffSlotDef,
        if_neg (by omega : ¬e.compressedSize > 0xFFFFFFFF),
        if_neg (by omega : ¬e.uncompressedSize > 0xFFFFFFFF),
        if_neg (by omega : ¬e.localHeaderOffset > 0xFFFFFFFF)]
      push_neg
      exact ⟨hcsn, husn, hoffn⟩
    rw [if_neg hcond]
    dsimp only
    rw [hcsSlotDef, husSlotDef, hoffSlotDef,
      if_neg (by omega : ¬e.compressedSize > 0xFFFFFFFF),
      if_neg (by omega : ¬e.uncompressedSize > 0xFFFFFFFF),
      if_neg (by omega : ¬e.localHeaderOffset > 0xFFFFFFFF)]
    try congr 2
    try omega

/-- A writer entry whose uncompressed size is exactly `0xFFFFFFFF` (not
promoted) while its compressed size is `2^32` (promoted): name "a", crc 0,
compressed `4294967296`, uncompressed `4294967295`, offset 0, DEFLATE. -/
def c6Entry : WEntry := ⟨[97], 0, 0, 4294967296, 4294967295, 8⟩

/-- C6 counterexample: on this record the classic uncompressed-size slot
holds the sentinel bit pattern although the value was not promoted, so the
reader misaligns the ZIP64 payload: it returns `4294967295` as the
compressed size (the promoted value `4294967296` is lost into the
uncompressed size).  The reader does not recover the promoted values. -/
theorem cdRecord_zip64_misparse :
    parseCdRecord (cdRecordBytes c6Entry) 0 =
      .ok (some (⟨[97], 4294967295, 4294967296, 8, 0⟩, 59)) ∧
    c6Entry.compressedSize = 4294967296 ∧
    c6Entry.uncompressedSize = 4294967295 :=
  ⟨by decide, by decide, by decide⟩

/-- C6 (amended): in every central-directory record, each of compressed
size (slot at offset 20), uncompressed size (offset 24) and local-header
offset (offset 42) is written as the sentinel `0xFFFFFFFF` exactly when its
value exceeds `2^32 - 1` (a value equal to `2^32 - 1` is written as itself,
which is the same bit pattern); the ZIP64 extra field (id `0x0001`) is
present exactly when some field is promoted, its payload the promoted
fields as 8-byte little-endian values in the order uncompressed,
compressed, offset; and provided no field's value is exactly `0xFFFFFFFF`,
the reader's record parse recovers all three values exactly, consuming the
payload in that same order. -/
theorem cdRecord_zip64_per_field (e : WEntry) (after : List Nat)
    (hname : e.name.length < 65536)
    (hmeth : e.compressionMethod < 65536)
    (hcs : e.compressedSize < 18446744073709551616)
    (hus : e.uncompressedSize < 18446744073709551616)
    (hoff : e.localHeaderOffset < 18446744073709551616)
    (hcsn : e.compressedSize ≠ 0xFFFFFFFF)
    (husn : e.uncompressedSize ≠ 0xFFFFFFFF)
    (hoffn : e.localHeaderOffset ≠ 0xFFFFFFFF) :
    readU32At (cdRecordBytes e) 20 =
      some (if e.compressedSize > 0xFFFFFFFF then 0xFFFFFFFF else e.compressedSize) ∧
    readU32At (cdRecordBytes e) 24 =
      some (if e.uncompressedSize > 0xFFFFFFFF then 0xFFFFFFFF
            else e.uncompressedSize) ∧
    readU32At (cdRecordBytes e) 42 =
      some (if e.localHeaderOffset > 0xFFFFFFFF then 0xFFFFFFFF
            else e.localHeaderOffset) ∧
    (zip64ExtraField e.uncompressedSize e.compressedSize e.localHeaderOffset ≠ [] ↔
      (e.uncompressedSize > 0xFFFFFFFF ∨ e.compressedSize > 0xFFFFFFFF ∨
       e.localHeaderOffset > 0xFFFFFFFF)) ∧
    parseCdRecord (cdRecordBytes e ++ after) 0 =
      .ok (some ({ name := e.name, compressedSize := e.compressedSize,
                   uncompressedSize := e.uncompressedSize,
                   compressionMethod := e.compressionMethod,
                   offset := e.localHeaderOffset },
                 46 + e.name.length +
                   (zip64ExtraField e.uncompressedSize e.compressedSize
                     e.localHeaderOffset).length)) := by
  have hcsLt : (if e.compressedSize > 0xFFFFFFFF then 0xFFFFFFFF
      else e.compressedSize) < 4294967296 := by split <;> omega
  have husLt : (if e.uncompressedSize > 0xFFFFFFFF then 0xFFFFFFFF
      else e.uncompressedSize) < 4294967296 := by split <;> omega
  have hoffLt : (if e.localHeaderOffset > 0xFFFFFFFF then 0xFFFFFFFF
      else e.localHeaderOffset) < 4294967296 := by split <;> omega
  refine ⟨?_, ?_, ?_, ?_, ?_⟩
  · rw [cdRecordBytes_reshape]
    simp only [List.append_assoc]
    rw [        readU32At_peel [0x50, 0x4b, 0x01, 0x02] _ 16 20 (by simp only [le16_length, le32_length, List.length_cons, List.length_nil] <;> omega),
        readU32At_peel [20, 0] _ 14 16 (by simp only [le16_length, le32_length, List.length_cons, List.length_nil] <;> omega),
        readU32At_peel [20, 0] _ 12 14 (by simp only [le16_length, le32_length, List.length_cons, List.length_nil] <;> omega),
        readU32At_peel [8, 0] _ 10 12 (by simp only [le16_length, le32_length, List.length_cons, List.length_nil] <;> omega),
        readU32At_peel (le16 e.compressionMethod) _ 8 10 (by simp only [le16_length, le32_length, List.length_cons, List.length_nil] <;> omega),
        readU32At_peel [0, 0, 0, 0] _ 4 8 (by simp only [le16_length, le32_length, List.length_cons, List.length_nil] <;> omega),
        readU32At_peel (le32 e.crc32) _ 0 4 (by simp only [le16_length, le32_length, List.length_cons, List.length_nil] <;> omega),
        readU32At_head (le32 (if e.compressedSize > 0xFFFFFFFF then 0xFFFFFFFF else e.compressedSize)) _ (le32_length _), leDec_le32_eq _ hcsLt]
  · rw [cdRecordBytes_reshape]
    simp only [List.append_assoc]
    rw [        readU32At_peel [0x50, 0x4b, 0x01, 0x02] _ 20 24 (by simp only [le16_length, le32_length, List.length_cons, List.length_nil] <;> omega),
        readU32At_peel [20, 0] _ 18 20 (by simp only [le16_length, le32_length, List.length_cons, List.length_nil] <;> omega),
        readU32At_peel [20, 0] _ 16 18 (by simp only [le16_length, le32_length, List.length_cons, List.length_nil] <;> omega),
        readU32At_peel [8, 0] _ 14 16 (by simp only [le16_length, le32_length, List.length_cons, List.length_nil] <;> omega),
        readU32At_peel (le16 e.compressionMethod) _ 12 14 (by simp only [le16_length, le32_length, List.length_cons, List.length_nil] <;> omega),
        readU32At_peel [0, 0, 0, 0] _ 8 12 (by simp only [le16_length, le32_length, List.length_cons, List.length_nil] <;> omega),
        readU32At_peel (le32 e.crc32) _ 4 8 (by simp only [le16_length, le32_length, List.length_cons, List.length_nil] <;> omega),
        readU32At_peel (le32 (if e.compressedSize > 0xFFFFFFFF then 0xFFFFFFFF else e.compressedSize)) _ 0 4 (by simp only [le16_length, le32_length, List.length_cons, List.length_nil] <;> omega),
        readU32At_head (le32 (if e.uncompressedSize > 0xFFFFFFFF then 0xFFFFFFFF else e.uncompressedSize)) _ (le32_length _), leDec_le32_eq _ husLt]
  · rw [cdRecordBytes_reshape]
    simp only [List.append_assoc]
    rw [        readU32At_peel [0x50, 0x4b, 0x01, 0x02] _ 38 42 (by simp only [le16_length, le32_length, List.length_cons, List.length_nil] <;> omega),
        readU32At_peel [20, 0] _ 36 38 (by simp only [le16_length, le32_length, List.length_cons, List.length_nil] <;> omega),
        readU32At_peel [20, 0] _ 34 36 (by simp only [le16_length, le32_length, List.length_cons, List.length_nil] <;> omega),
        readU32At_peel [8, 0] _ 32 34 (by simp only [le16_length, le32_length, List.length_cons, List.length_nil] <;> omega),
        readU32At_peel (le16 e.compressionMethod) _ 30 32 (by simp only [le16_length, le32_length, List.length_cons, List.length_nil] <;> omega),
        readU32At_peel [0, 0, 0, 0] _ 26 30 (by simp only [le16_length, le32_length, List.length_cons, List.length_nil] <;> omega),
        readU32At_peel (le32 e.crc32) _ 22 26 (by simp only [le16_length, le32_length, List.length_cons, List.length_nil] <;> omega),
        readU32At_peel (le32 (if e.compressedSize > 0xFFFFFFFF then 0xFFFFFFFF else e.compressedSize)) _ 18 22 (by simp only [le16_length, le32_length, List.length_cons, List.length_nil] <;> omega),
        readU32At_peel (le32 (if e.uncompressedSize > 0xFFFFFFFF then 0xFFFFFFFF else e.uncompressedSize)) _ 14 18 (by simp only [le16_length, le32_length, List.length_cons, List.length_nil] <;> omega),
        readU32At_peel (le16 (e.name.length % 65536)) _ 12 14 (by simp only [le16_length, le32_length, List.length_cons, List.length_nil] <;> omega),
        readU32At_peel (le16 ((zip64ExtraField e.uncompressedSize e.compressedSize e.localHeaderOffset).length % 65536)) _ 10 12 (by simp only [le16_length, le32_length, List.length_cons, List.length_nil] <;> omega),
        readU32At_peel (le16 0) _ 8 10 (by simp only [le16_length, le32_length, List.length_cons, List.length_nil] <;> omega),
        readU32At_peel (le16 0) _ 6 8 (by simp only [le16_length, le32_length, List.length_cons, List.length_nil] <;> omega),
        readU32At_peel (le16 0) _ 4 6 (by simp only [le16_length, le32_length, List.length_cons, List.length_nil] <;> omega),
        readU32At_peel (le32 0) _ 0 4 (by simp only [le16_length, le32_length, List.length_cons, List.length_nil] <;> omega),
        readU32At_head (le32 (if e.localHeaderOffset > 0xFFFFFFFF then 0xFFFFFFFF else e.localHeaderOffset)) _ (le32_length _), leDec_le32_eq _ hoffLt]
  · unfold zip64ExtraField
    by_cases hc : e.uncompressedSize > 0xFFFFFFFF ∨ e.compressedSize > 0xFFFFFFFF ∨
        e.localHeaderOffset > 0xFFFFFFFF
    · rw [if_pos hc]
      exact iff_of_true (by simp [le16]) hc
    · rw [if_neg hc]
      exact iff_of_false (by simp) hc
  · have h := parseCdRecord_spec ([] ++ (cdRecordBytes e ++ after)) [] after e rfl
      hname hmeth hcs hus hoff hcsn husn hoffn
    simpa using h

/-- A promoted concrete entry for the C6 witness: compressed size `2^32`. -/
def c6WEntry : WEntry := ⟨[98], 7, 0, 4294967296, 5, 8⟩

/-- C6 witness: the per-field promotion theorem applied to the concrete
promoted entry. -/
theorem cdRecord_zip64_per_field_witness :
    parseCdRecord (cdRecordBytes c6WEntry ++ []) 0 =
      .ok (some ({ name := c6WEntry.name, compressedSize := c6WEntry.compressedSize,
                   uncompressedSize := c6WEntry.uncompressedSize,
                   compressionMethod := c6WEntry.compressionMethod,
                   offset := c6WEntry.localHeaderOffset },
                 46 + c6WEntry.name.length +
                   (zip64ExtraField c6WEntry.uncompressedSize c6WEntry.compressedSize
                     c6WEntry.localHeaderOffset).length)) :=
  (cdRecord_zip64_per_field c6WEntry [] (by decide) (by decide) (by decide) (by decide)
    (by decide) (by decide) (by decide) (by decide)).2.2.2.2

end SZip
namespace SZip

/-! ## C1 — writer-run characterisation

The pure shape of an unencrypted DEFLATE run: each `(name, data)` pair
contributes one block (local header, compressed bytes, data descriptor), and
`finish` appends the central directory and trailer. -/

/-- The bytes one unencrypted entry contributes to the archive. -/
def entryBlock (c : Codec) (name data : List Nat) : List Nat :=
  localHeaderBytes name 8 none ++
    (c.compress data ++
      dataDescriptor (crc32 data) (c.compress data).length data.length)

/-- The central-directory metadata the writer records for one unencrypted
entry whose local header starts at `off`. -/
def metaFor (c : Codec) (off : Nat) (p : List Nat × List Nat) : WEntry :=
  { name := p.1, localHeaderOffset := off, crc32 := crc32 p.2,
    compressedSize := (c.compress p.2).length, uncompressedSize := p.2.length,
    compressionMethod := 8 }

/-- Blocks and metadata of a pair sequence written starting at offset `off`. -/
def pureBlocks (c : Codec) (off : Nat) : List (List Nat × List Nat) → List Nat × List WEntry
  | [] => ([], [])
  | p :: rest =>
    let blk := entryBlock c p.1 p.2
    let pr := pureBlocks c (off + blk.length) rest
    (blk ++ pr.1, metaFor c off p :: pr.2)

/-- The central directory serialising a metadata list. -/
def cdList (metas : List WEntry) : List Nat := (metas.map cdRecordBytes).flatten

/-- The archive an unencrypted DEFLATE run over `pairs` produces. -/
def archiveBytes (c : Codec) (pairs : List (List Nat × List Nat)) : List Nat :=
  (pureBlocks c 0 pairs).1 ++
    (cdList (pureBlocks c 0 pairs).2 ++
      finishTrailer (pureBlocks c 0 pairs).2.length
        (cdList (pureBlocks c 0 pairs).2).length
        (pureBlocks c 0 pairs).1.length)

/-- A writer between entries: output `X`, sealed entries `M`, no live entry. -/
def cleanState (c : Codec) (lvl : Nat) (X : List Nat) (M : List WEntry) : WriterState :=
  { output := X, entries := M, currentEntry := none, compressionLevel := lvl,
    compressionMethod := .deflate, password := none, deflateCodec := c, zstdCodec := c }

/-- A writer mid-entry: the pair `p` has been started (header emitted at
offset `X.length`) and fully written. -/
def midState (c : Codec) (lvl : Nat) (X : List Nat) (M : List WEntry)
    (p : List Nat × List Nat) : WriterState :=
  { output := X ++ localHeaderBytes p.1 8 none, entries := M,
    currentEntry := some
      { name := p.1, localHeaderOffset := X.length, fed := p.2,
        crcAcc := crc32Update 0xFFFFFFFF p.2, uncompressedCount := p.2.length,
        compressionMethod := 8, encryptor := none },
    compressionLevel := lvl, compressionMethod := .deflate, password := none,
    deflateCodec := c, zstdCodec := c }

/-- One `start_entry`/`write_data` step of the driver fold. -/
def stepPair (st : WriterState) (p : List Nat × List Nat) : Except SZipErr WriterState := do
  let st1 ← startEntry st p.1 []
  writeData st1 p.2

theorem stepPair_clean (c : Codec) (lvl : Nat) (X : List Nat) (M : List WEntry)
    (p : List Nat × List Nat) :
    stepPair (cleanState c lvl X M) p = .ok (midState c lvl X M p) := by
  unfold stepPair startEntry writeData finishCurrentEntry cleanState midState
  simp [bind, Except.bind, CompressionMethod.toZipMethod]

theorem finishCurrentEntry_mid (c : Codec) (lvl : Nat) (X : List Nat)
    (M : List WEntry) (p : List Nat × List Nat) :
    finishCurrentEntry (midState c lvl X M p) =
      cleanState c lvl (X ++ entryBlock c p.1 p.2) (M ++ [metaFor c X.length p]) := by
  unfold finishCurrentEntry midState cleanState entryBlock metaFor
    WriterState.codecFor dataDescriptor crc32
  simp [List.append_assoc]

theorem stepPair_mid (c : Codec) (lvl : Nat) (X : List Nat) (M : List WEntry)
    (p q : List Nat × List Nat) :
    stepPair (midState c lvl X M p) q =
      .ok (midState c lvl (X ++ entryBlock c p.1 p.2) (M ++ [metaFor c X.length p]) q) := by
  unfold stepPair startEntry
  rw [finishCurrentEntry_mid]
  unfold writeData cleanState midState
  simp [bind, Except.bind, CompressionMethod.toZipMethod]

theorem finish_clean (c : Codec) (lvl : Nat) (X : List Nat) (M : List WEntry) :
    finish (cleanState c lvl X M) =
      X ++ (cdList M ++ finishTrailer M.length (cdList M).length X.length) := by
  unfold finish finishCurrentEntry cleanState cdList
  simp [List.append_assoc]

theorem finish_mid (c : Codec) (lvl : Nat) (X : List Nat) (M : List WEntry)
    (p : List Nat × List Nat) :
    finish (midState c lvl X M p) =
      (X ++ entryBlock c p.1 p.2) ++
        (cdList (M ++ [metaFor c X.length p]) ++
          finishTrailer (M ++ [metaFor c X.length p]).length
            (cdList (M ++ [metaFor c X.length p])).length
            (X ++ entryBlock c p.1 p.2).length) := by
  unfold finish
  rw [finishCurrentEntry_mid]
  unfold cleanState cdList
  simp [List.append_assoc]

theorem run_mid (c : Codec) (lvl : Nat) (rest : List (List Nat × List Nat)) :
    ∀ (X : List Nat) (M : List WEntry) (p : List Nat × List Nat),
    Except.map finish (rest.foldlM stepPair (midState c lvl X M p)) =
      .ok ((X ++ (pureBlocks c X.length (p :: rest)).1) ++
        (cdList (M ++ (pureBlocks c X.length (p :: rest)).2) ++
          finishTrailer (M ++ (pureBlocks c X.length (p :: rest)).2).length
            (cdList (M ++ (pureBlocks c X.length (p :: rest)).2)).length
            (X ++ (pureBlocks c X.length (p :: rest)).1).length)) := by
  induction rest with
  | nil =>
    intro X M p
    show Except.ok (finish (midState c lvl X M p)) = _
    rw [finish_mid]
    simp [pureBlocks, List.append_assoc]
  | cons q rest ih =>
    intro X M p
    rw [List.foldlM_cons, stepPair_mid]
    show Except.map finish (rest.foldlM stepPair
      (midState c lvl (X ++ entryBlock c p.1 p.2) (M ++ [metaFor c X.length p]) q)) = _
    rw [ih (X ++ entryBlock c p.1 p.2) (M ++ [metaFor c X.length p]) q]
    simp [pureBlocks, List.append_assoc, List.length_append]

theorem writeSequence_as_fold (c : Codec) (lvl : Nat)
    (pairs : List (List Nat × List Nat)) :
    writeSequence c lvl pairs =
      Except.map finish (pairs.foldlM stepPair (cleanState c lvl [] [])) := by
  unfold writeSequence stepPair cleanState fromWriter Except.map
  rfl

theorem writeSequence_eq (c : Codec) (lvl : Nat)
    (pairs : List (List Nat × List Nat)) :
    writeSequence c lvl pairs = .ok (archiveBytes c pairs) := by
  cases pairs with
  | nil =>
    rw [writeSequence_as_fold]
    show Except.ok (finish (cleanState c lvl [] [])) = _
    rw [finish_clean]
    unfold archiveBytes pureBlocks cdList
    simp
  | cons p rest =>
    rw [writeSequence_as_fold, List.foldlM_cons, stepPair_clean]
    show Except.map finish (rest.foldlM stepPair (midState c lvl [] [] p)) = _
    rw [run_mid c lvl rest [] [] p]
    unfold archiveBytes
    simp

end SZip
namespace SZip

/-! ## C1 — reading one unencrypted entry back -/

theorem localHeaderBytes_plain (name : List Nat) (method : Nat) :
    localHeaderBytes name method none =
      [0x50, 0x4b, 0x03, 0x04] ++ ([51, 0] ++ ([8, 0] ++ (le16 method ++
        ([0, 0, 0, 0] ++ (le32 0 ++ (le32 0 ++ (le32 0 ++
          (le16 (name.length % 65536) ++ (le16 0 ++ name))))))))) := by
  unfold localHeaderBytes
  simp [List.append_assoc, Nat.or_zero]

/-- A file containing an unencrypted DEFLATE entry block, fully
right-associated for position peeling. -/
theorem entryBlock_chain (c : Codec) (before after name data : List Nat) :
    before ++ (entryBlock c name data ++ after) =
      before ++ ([0x50, 0x4b, 0x03, 0x04] ++ ([51, 0] ++ ([8, 0] ++ (le16 8 ++
        ([0, 0, 0, 0] ++ (le32 0 ++ (le32 0 ++ (le32 0 ++
          (le16 (name.length % 65536) ++ (le16 0 ++ (name ++
            (c.compress data ++
              ([0x50, 0x4b, 0x07, 0x08] ++ (le32 (crc32 data) ++
                ((if (c.compress data).length > 0xFFFFFFFF ∨ data.length > 0xFFFFFFFF
                  then le64 (c.compress data).length ++ le64 data.length
                  else le32 (c.compress data).length ++ le32 data.length) ++
                 after))))))))))))))) := by
  unfold entryBlock dataDescriptor
  rw [localHeaderBytes_plain]
  simp [List.append_assoc]

theorem readEntry_spec (c : Codec) (before after name data : List Nat)
    (hname : name.length < 65536) :
    readEntry c c (before ++ (entryBlock c name data ++ after))
      { name := name, compressedSize := (c.compress data).length,
        uncompressedSize := data.length, compressionMethod := 8,
        offset := before.length } = .ok (c.decompress (c.compress data)) := by
  have hsig : readU32At (before ++ (entryBlock c name data ++ after))
      before.length = some 0x04034b50 := by
    rw [entryBlock_chain,
      readU32At_peel before _ 0 before.length (by omega),
      readU32At_head [0x50, 0x4b, 0x03, 0x04] _ (by decide)]
    norm_num [leDec]
  have hnl : readU16At (before ++ (entryBlock c name data ++ after))
      (before.length + 26) = some name.length := by
    rw [entryBlock_chain,
      readU16At_peel before _ 26 (before.length + 26) (by omega),
      readU16At_peel [0x50, 0x4b, 0x03, 0x04] _ 22 26 (by simp only [List.length_cons, List.length_nil] <;> omega),
      readU16At_peel [51, 0] _ 20 22 (by simp only [List.length_cons, List.length_nil] <;> omega),
      readU16At_peel [8, 0] _ 18 20 (by simp only [List.length_cons, List.length_nil] <;> omega),
      readU16At_peel (le16 8) _ 16 18 (by simp only [le16_length] <;> omega),
      readU16At_peel [0, 0, 0, 0] _ 12 16 (by simp only [List.length_cons, List.length_nil] <;> omega),
      readU16At_peel (le32 0) _ 8 12 (by simp only [le32_length] <;> omega),
      readU16At_peel (le32 0) _ 4 8 (by simp only [le32_length] <;> omega),
      readU16At_peel (le32 0) _ 0 4 (by simp only [le32_length] <;> omega),
      readU16At_head (le16 (name.length % 65536)) _ (le16_length _),
      leDec_le16_eq _ (Nat.mod_lt _ (by omega)), Nat.mod_eq_of_lt hname]
  have hel : readU16At (before ++ (entryBlock c name data ++ after))
      (before.length + 28) = some 0 := by
    rw [entryBlock_chain,
      readU16At_peel before _ 28 (before.length + 28) (by omega),
      readU16At_peel [0x50, 0x4b, 0x03, 0x04] _ 24 28 (by simp only [List.length_cons, List.length_nil] <;> omega),
      readU16At_peel [51, 0] _ 22 24 (by simp only [List.length_cons, List.length_nil] <;> omega),
      readU16At_peel [8, 0] _ 20 22 (by simp only [List.length_cons, List.length_nil] <;> omega),
      readU16At_peel (le16 8) _ 18 20 (by simp only [le16_length] <;> omega),
      readU16At_peel [0, 0, 0, 0] _ 14 18 (by simp only [List.length_cons, List.length_nil] <;> omega),
      readU16At_peel (le32 0) _ 10 14 (by simp only [le32_length] <;> omega),
      readU16At_peel (le32 0) _ 6 10 (by simp only [le32_length] <;> omega),
      readU16At_peel (le32 0) _ 2 6 (by simp only [le32_length] <;> omega),
      readU16At_peel (le16 (name.length % 65536)) _ 0 2 (by simp only [le16_length] <;> omega),
      readU16At_head (le16 0) _ (le16_length _)]
    norm_num [leDec, le16]
  have hwin : readBytesAt (before ++ (entryBlock c name data ++ after))
      (before.length + 30 + name.length + 0) (c.compress data).length =
      some (c.compress data) := by
    rw [entryBlock_chain,
      readBytesAt_peel' before _ (30 + name.length) (before.length + 30 + name.length + 0) _ (by omega),
      readBytesAt_peel' [0x50, 0x4b, 0x03, 0x04] _ (26 + name.length) (30 + name.length) _ (by simp only [List.length_cons, List.length_nil] <;> omega),
      readBytesAt_peel' [51, 0] _ (24 + name.length) (26 + name.length) _ (by simp only [List.length_cons, List.length_nil] <;> omega),
      readBytesAt_peel' [8, 0] _ (22 + name.length) (24 + name.length) _ (by simp only [List.length_cons, List.length_nil] <;> omega),
      readBytesAt_peel' (le16 8) _ (20 + name.length) (22 + name.length) _ (by simp only [le16_length] <;> omega),
      readBytesAt_peel' [0, 0, 0, 0] _ (16 + name.length) (20 + name.length) _ (by simp only [List.length_cons, List.length_nil] <;> omega),
      readBytesAt_peel' (le32 0) _ (12 + name.length) (16 + name.length) _ (by simp only [le32_length] <;> omega),
      readBytesAt_peel' (le32 0) _ (8 + name.length) (12 + name.length) _ (by simp only [le32_length] <;> omega),
      readBytesAt_peel' (le32 0) _ (4 + name.length) (8 + name.length) _ (by simp only [le32_length] <;> omega),
      readBytesAt_peel' (le16 (name.length % 65536)) _ (2 + name.length) (4 + name.length) _ (by simp only [le16_length] <;> omega),
      readBytesAt_peel' (le16 0) _ (0 + name.length) (2 + name.length) _ (by simp only [le16_length] <;> omega),
      readBytesAt_peel' name _ 0 (0 + name.length) _ (by omega),
      readBytesAt_head (c.compress data) _ _ rfl]
  unfold readEntry
  rw [hsig]
  dsimp only
  rw [if_neg (by decide : ¬((0x04034b50 : Nat) ≠ 0x04034b50))]
  rw [hnl, hel]
  dsimp only
  rw [hwin]
  dsimp only
  rw [if_pos rfl]

/-- The CRC the writer stores in the entry's data descriptor, read back from
the archive: 4 bytes at descriptor start + 4. -/
theorem entryBlock_crc_at (c : Codec) (before after name data : List Nat)
    (hcrc : crc32 data < 4294967296) :
    readU32At (before ++ (entryBlock c name data ++ after))
      (before.length + 30 + name.length + (c.compress data).length + 4) =
      some (crc32 data) := by
  rw [entryBlock_chain,
    readU32At_peel before _ (30 + name.length + (c.compress data).length + 4) _ (by omega),
    readU32At_peel [0x50, 0x4b, 0x03, 0x04] _ (26 + name.length + (c.compress data).length + 4) _ (by simp only [List.length_cons, List.length_nil] <;> omega),
    readU32At_peel [51, 0] _ (24 + name.length + (c.compress data).length + 4) _ (by simp only [List.length_cons, List.length_nil] <;> omega),
    readU32At_peel [8, 0] _ (22 + name.length + (c.compress data).length + 4) _ (by simp only [List.length_cons, List.length_nil] <;> omega),
    readU32At_peel (le16 8) _ (20 + name.length + (c.compress data).length + 4) _ (by simp only [le16_length] <;> omega),
    readU32At_peel [0, 0, 0, 0] _ (16 + name.length + (c.compress data).length + 4) _ (by simp only [List.length_cons, List.length_nil] <;> omega),
    readU32At_peel (le32 0) _ (12 + name.length + (c.compress data).length + 4) _ (by simp only [le32_length] <;> omega),
    readU32At_peel (le32 0) _ (8 + name.length + (c.compress data).length + 4) _ (by simp only [le32_length] <;> omega),
    readU32At_peel (le32 0) _ (4 + name.length + (c.compress data).length + 4) _ (by simp only [le32_length] <;> omega),
    readU32At_peel (le16 (name.length % 65536)) _ (2 + name.length + (c.compress data).length + 4) _ (by simp only [le16_length] <;> omega),
    readU32At_peel (le16 0) _ (name.length + (c.compress data).length + 4) _ (by simp only [le16_length] <;> omega),
    readU32At_peel name _ ((c.compress data).length + 4) _ (by omega),
    readU32At_peel (c.compress data) _ 4 _ (by omega),
    readU32At_peel [0x50, 0x4b, 0x07, 0x08] _ 0 4 (by simp only [List.length_cons, List.length_nil] <;> omega),
    readU32At_head (le32 (crc32 data)) _ (le32_length _),
    leDec_le32_eq _ hcrc]

end SZip
namespace SZip

/-! ## C1 — locating the end-of-central-directory record -/

theorem getD_shift (x rest : List Nat) (k : Nat) :
    (x ++ rest).getD (x.length + k) 0 = rest.getD k 0 := by
  induction x with
  | nil => simp
  | cons a x ih =>
    have h : (a :: x).length + k = (x.length + k) + 1 := by
      simp [List.length_cons]
      omega
    rw [List.cons_append, h, List.getD_cons_succ, ih]

/-- The descending scan returns the position of the last matching window:
if `P` matches and nothing strictly between `P` and `k` does, the scan
started at `k` stops at `P`. -/
theorem scanDesc_finds (buf : List Nat) (b0 b1 b2 b3 : Nat) (P : Nat) :
    ∀ k, sigTestAt buf P b0 b1 b2 b3 = true →
      (∀ i, P < i → i < k → sigTestAt buf i b0 b1 b2 b3 = false) →
      P < k → scanDesc buf b0 b1 b2 b3 k = some P := by
  intro k
  induction k with
  | zero => intro _ _ h; omega
  | succ m ih =>
    intro hP hno hlt
    unfold scanDesc
    by_cases hm : m = P
    · subst hm
      rw [hP]
      simp
    · rw [hno m (by omega) (by omega)]
      simp only [Bool.false_eq_true, if_false]
      exact ih hP (fun i h1 h2 => hno i h1 (by omega)) (by omega)

/-- The classic EOCD, byte by byte, when the entry count fits a single byte
and central-directory size and offset fit three bytes. -/
theorem classicEocd_bytes (n s o : Nat)
    (hn : n ≤ 255) (hs : s < 16777216) (ho : o < 16777216) :
    classicEocd n s o =
      [0x50, 0x4b, 0x05, 0x06, 0, 0, 0, 0, n % 256, 0, n % 256, 0,
       s % 256, s / 256 % 256, s / 65536 % 256, 0,
       o % 256, o / 256 % 256, o / 65536 % 256, 0, 0, 0] := by
  have h1 : n / 256 % 256 = 0 := by omega
  have h2 : s / 16777216 % 256 = 0 := by omega
  have h3 : o / 16777216 % 256 = 0 := by omega
  rw [classicEocd_reshape, if_neg (by omega : ¬n > 0xFFFF),
    if_neg (by omega : ¬s > 0xFFFFFFFF), if_neg (by omega : ¬o > 0xFFFFFFFF)]
  simp [le16, le32, h1, h2, h3]

/-- The EOCD signature matches at the EOCD start. -/
theorem eocd_sig_match (pre : List Nat) (n s o : Nat)
    (hn : n ≤ 255) (hs : s < 16777216) (ho : o < 16777216) :
    sigTestAt (pre ++ classicEocd n s o) pre.length 0x50 0x4b 0x05 0x06 = true := by
  unfold sigTestAt
  rw [show pre.length = pre.length + 0 from by omega,
    show pre.length + 0 + 1 = pre.length + 1 from by omega,
    show pre.length + 1 + 1 = pre.length + 2 from by omega,
    show pre.length + 2 + 1 = pre.length + 3 from by omega,
    getD_shift pre _ 0, getD_shift pre _ 1, getD_shift pre _ 2, getD_shift pre _ 3,
    classicEocd_bytes n s o hn hs ho]
  rfl

/-- No window strictly inside the EOCD matches the EOCD signature: at every
interior offset some window byte is a structural zero while the signature
has no zero byte. -/
theorem eocd_interior_nomatch (pre : List Nat) (n s o : Nat)
    (hn : n ≤ 255) (hs : s < 16777216) (ho : o < 16777216)
    (d : Nat) (hd1 : 1 ≤ d) (hd2 : d ≤ 18) :
    sigTestAt (pre ++ classicEocd n s o) (pre.length + d) 0x50 0x4b 0x05 0x06 = false := by
  unfold sigTestAt
  rw [show pre.length + d + 1 = pre.length + (d + 1) from by omega,
    show pre.length + d + 2 = pre.length + (d + 2) from by omega,
    show pre.length + d + 3 = pre.length + (d + 3) from by omega,
    getD_shift pre _ d, getD_shift pre _ (d + 1), getD_shift pre _ (d + 2),
    getD_shift pre _ (d + 3), classicEocd_bytes n s o hn hs ho]
  rw [← Bool.not_eq_true]
  interval_cases d <;>
    (intro hEq
     obtain ⟨⟨⟨h0, h1⟩, h2⟩, h3⟩ :
         ((_ = true ∧ _ = true) ∧ _ = true) ∧ _ = true := by
       simpa only [Bool.and_eq_true] using hEq
     first
       | exact absurd (show ((0 : Nat) == 80) = true from h0) (by decide)
       | exact absurd (show ((0 : Nat) == 75) = true from h1) (by decide)
       | exact absurd (show ((0 : Nat) == 5) = true from h2) (by decide)
       | exact absurd (show ((0 : Nat) == 6) = true from h3) (by decide))

end SZip
namespace SZip

/-- `find_eocd` on a file ending in a classic EOCD with in-range fields
returns the EOCD's position: the backwards scan's first hit is the EOCD's
own signature. -/
theorem findEocd_finds (pre : List Nat) (n s o : Nat)
    (hn : n ≤ 255) (hs : s < 16777216) (ho : o < 16777216) :
    findEocd (pre ++ classicEocd n s o) = .ok pre.length := by
  have hA : (pre ++ classicEocd n s o).length = pre.length + 22 := by
    rw [List.length_append, classicEocd_length]
  unfold findEocd scanLastSig
  set t := if (pre ++ classicEocd n s o).length ≤ 65557 then 0
    else (pre ++ classicEocd n s o).length - 65557 with ht
  have ht2 : t = (pre ++ classicEocd n s o).length - 65557 := by
    rw [ht]
    split <;> omega
  have htle : t ≤ pre.length := by omega
  have hdrop : (pre ++ classicEocd n s o).drop t = pre.drop t ++ classicEocd n s o := by
    rw [List.drop_append_eq_append_drop, Nat.sub_eq_zero_of_le htle, List.drop_zero]
  have hplen : (pre.drop t).length = pre.length - t := by
    rw [List.length_drop]
  have hk : (pre.drop t ++ classicEocd n s o).length - 3 = (pre.length - t) + 19 := by
    rw [List.length_append, hplen, classicEocd_length]
    omega
  have hmatch : sigTestAt (pre.drop t ++ classicEocd n s o) (pre.length - t)
      0x50 0x4b 0x05 0x06 = true := by
    rw [← hplen]
    exact eocd_sig_match (pre.drop t) n s o hn hs ho
  have hscan : scanDesc ((pre ++ classicEocd n s o).drop t) 0x50 0x4b 0x05 0x06
      (((pre ++ classicEocd n s o).drop t).length - 3) = some (pre.length - t) := by
    rw [hdrop, hk]
    refine scanDesc_finds _ 0x50 0x4b 0x05 0x06 (pre.length - t) ((pre.length - t) + 19) hmatch ?_ (by omega)
    intro i hi1 hi2
    have hd : i = (pre.drop t).length + (i - (pre.length - t)) := by
      rw [hplen]; omega
    rw [hd]
    exact eocd_interior_nomatch (pre.drop t) n s o hn hs ho _ (by omega) (by omega)
  dsimp only
  rw [hscan]
  show Except.ok (t + (pre.length - t)) = Except.ok pre.length
  have : t + (pre.length - t) = pre.length := by omega
  rw [this]

end SZip
namespace SZip

/-! ## C1 — the central-directory walk over a written directory -/

/-- The reader's view of a sealed writer entry. -/
def readerEntryOf (m : WEntry) : RZipEntry :=
  { name := m.name, compressedSize := m.compressedSize,
    uncompressedSize := m.uncompressedSize,
    compressionMethod := m.compressionMethod, offset := m.localHeaderOffset }

theorem cdRecordBytes_length (e : WEntry) :
    (cdRecordBytes e).length = 46 + e.name.length +
      (zip64ExtraField e.uncompressedSize e.compressedSize
        e.localHeaderOffset).length := by
  rw [cdRecordBytes_reshape]
  simp [le16_length, le32_length]
  omega

/-- Walking the central directory the writer emitted for `metas` yields one
reader entry per record, in order, provided every field fits its classic
slot (no value reaches the `0xFFFFFFFF` sentinel). -/
theorem parseCdLoop_metas (metas : List WEntry) :
    ∀ (before after : List Nat),
    (∀ m ∈ metas, m.name.length < 65536 ∧ m.compressionMethod < 65536 ∧
      m.compressedSize < 4294967295 ∧ m.uncompressedSize < 4294967295 ∧
      m.localHeaderOffset < 4294967295) →
    parseCdLoop (before ++ (cdList metas ++ after)) before.length metas.length =
      .ok (metas.map readerEntryOf) := by
  induction metas with
  | nil => intro before after hm; rfl
  | cons m metas ih =>
    intro before after hm
    obtain ⟨h1, h2, h3, h4, h5⟩ := hm m (List.mem_cons_self m metas)
    have hz : zip64ExtraField m.uncompressedSize m.compressedSize
        m.localHeaderOffset = [] := by
      unfold zip64ExtraField
      rw [if_neg]
      push_neg
      exact ⟨by omega, by omega, by omega⟩
    have hfile : before ++ (cdList (m :: metas) ++ after) =
        before ++ (cdRecordBytes m ++ (cdList metas ++ after)) := by
      simp [cdList, List.append_assoc]
    have hrec := parseCdRecord_spec (before ++ (cdList (m :: metas) ++ after))
      before (cdList metas ++ after) m hfile h1 h2 (by omega) (by omega) (by omega)
      (by omega) (by omega) (by omega)
    rw [hz] at hrec
    simp only [List.length_nil, Nat.add_zero] at hrec
    show parseCdLoop (before ++ (cdList (m :: metas) ++ after)) before.length
      (metas.length + 1) = _
    unfold parseCdLoop
    rw [hrec]
    have hlen : (cdRecordBytes m).length = 46 + m.name.length := by
      rw [cdRecordBytes_length, hz]
      simp
    have hpos : before.length + 46 + m.name.length =
        (before ++ cdRecordBytes m).length := by
      rw [List.length_append, hlen]
      omega
    have hfile2 : before ++ (cdList (m :: metas) ++ after) =
        (before ++ cdRecordBytes m) ++ (cdList metas ++ after) := by
      simp [cdList, List.append_assoc]
    rw [hpos, hfile2]
    dsimp only
    rw [ih (before ++ cdRecordBytes m) after
      (fun x hx => hm x (List.mem_cons_of_mem m hx))]
    simp [readerEntryOf]

end SZip
namespace SZip

/-! ## C1 — structure of the pure writer run -/

theorem pureBlocks_metas_length (c : Codec) :
    ∀ (pairs : List (List Nat × List Nat)) (off : Nat),
      (pureBlocks c off pairs).2.length = pairs.length := by
  intro pairs
  induction pairs with
  | nil => intro off; rfl
  | cons p rest ih =>
    intro off
    simp [pureBlocks, ih]

/-- Every sealed entry of an unencrypted run comes from one input pair: its
fields are the pair's, and its local-header offset stays within the run's
byte range. -/
theorem pureBlocks_meta_fields (c : Codec) :
    ∀ (pairs : List (List Nat × List Nat)) (off : Nat) (m : WEntry),
      m ∈ (pureBlocks c off pairs).2 →
      ∃ p ∈ pairs, m.name = p.1 ∧ m.compressionMethod = 8 ∧
        m.compressedSize = (c.compress p.2).length ∧
        m.uncompressedSize = p.2.length ∧
        off ≤ m.localHeaderOffset ∧
        m.localHeaderOffset ≤ off + (pureBlocks c off pairs).1.length := by
  intro pairs
  induction pairs with
  | nil => intro off m hm; simp [pureBlocks] at hm
  | cons p rest ih =>
    intro off m hm
    simp only [pureBlocks, List.mem_cons] at hm
    rcases hm with hm | hm
    · refine ⟨p, List.mem_cons_self p rest, ?_⟩
      subst hm
      simp [metaFor, pureBlocks]
    · obtain ⟨q, hq, hqn, hqm, hqc, hqu, hqlo, hqhi⟩ :=
        ih (off + (entryBlock c p.1 p.2).length) m hm
      refine ⟨q, List.mem_cons_of_mem p hq, hqn, hqm, hqc, hqu, by omega, ?_⟩
      simp only [pureBlocks, List.length_append]
      omega

/-- The default entry used with `List.getD` on metadata lists. -/
def wDefault : WEntry := ⟨[], 0, 0, 0, 0, 0⟩

/-- The default pair used with `List.getD` on pair lists. -/
def pairDefault : List Nat × List Nat := ([], [])

/-- Index `i` of a run: the blocks split around the `i`-th entry block, and
the `i`-th metadata entry records that block's start. -/
theorem pureBlocks_index (c : Codec) :
    ∀ (pairs : List (List Nat × List Nat)) (off i : Nat), i < pairs.length →
      ∃ B1 B2 : List Nat,
        (pureBlocks c off pairs).1 =
          B1 ++ (entryBlock c (pairs.getD i pairDefault).1
            (pairs.getD i pairDefault).2 ++ B2) ∧
        (pureBlocks c off pairs).2.getD i wDefault =
          metaFor c (off + B1.length) (pairs.getD i pairDefault) := by
  intro pairs
  induction pairs with
  | nil => intro off i hi; simp at hi
  | cons p rest ih =>
    intro off i hi
    cases i with
    | zero =>
      refine ⟨[], (pureBlocks c (off + (entryBlock c p.1 p.2).length) rest).1, ?_, ?_⟩
      · simp [pureBlocks]
      · simp [pureBlocks, metaFor]
    | succ i =>
      obtain ⟨B1, B2, hB, hM⟩ := ih (off + (entryBlock c p.1 p.2).length) i
        (by simpa using hi)
      refine ⟨entryBlock c p.1 p.2 ++ B1, B2, ?_, ?_⟩
      · simp only [pureBlocks, List.getD_cons_succ, hB, List.append_assoc]
      · simp only [pureBlocks, List.getD_cons_succ, hM, List.length_append]
        rw [Nat.add_assoc]

end SZip
namespace SZip

/-- Opening an archive written by an unencrypted DEFLATE run recovers
exactly the writer's central directory, one entry per pair, provided the
run stays below every sentinel threshold (count ≤ 255 and total size below
2^24 make the EOCD scan unambiguous). -/
theorem openArchive_run (c : Codec) (pairs : List (List Nat × List Nat))
    (hcount : pairs.length ≤ 255)
    (hname : ∀ p ∈ pairs, p.1.length < 65536)
    (hdata : ∀ p ∈ pairs, p.2.length < 4294967295)
    (hcomp : ∀ p ∈ pairs, (c.compress p.2).length < 4294967295)
    (harch : (archiveBytes c pairs).length < 16777216) :
    openArchive (archiveBytes c pairs) =
      .ok ((pureBlocks c 0 pairs).2.map readerEntryOf) := by
  have hN : (pureBlocks c 0 pairs).2.length = pairs.length :=
    pureBlocks_metas_length c pairs 0
  have hlen0 : (archiveBytes c pairs).length =
      (pureBlocks c 0 pairs).1.length + ((cdList (pureBlocks c 0 pairs).2).length +
        (finishTrailer (pureBlocks c 0 pairs).2.length
          (cdList (pureBlocks c 0 pairs).2).length
          (pureBlocks c 0 pairs).1.length).length) := by
    unfold archiveBytes
    simp [List.length_append]
  have hO : (pureBlocks c 0 pairs).1.length < 16777216 := by omega
  have hS : (cdList (pureBlocks c 0 pairs).2).length < 16777216 := by omega
  have hNv : (pureBlocks c 0 pairs).2.length ≤ 255 := by omega
  have hTrailer : finishTrailer (pureBlocks c 0 pairs).2.length
      (cdList (pureBlocks c 0 pairs).2).length (pureBlocks c 0 pairs).1.length =
      classicEocd (pureBlocks c 0 pairs).2.length
        (cdList (pureBlocks c 0 pairs).2).length (pureBlocks c 0 pairs).1.length := by
    unfold finishTrailer
    rw [if_neg (by push_neg; exact ⟨by omega, by omega, by omega⟩)]
    rw [List.nil_append]
  have hAeq : archiveBytes c pairs =
      ((pureBlocks c 0 pairs).1 ++ cdList (pureBlocks c 0 pairs).2) ++
        classicEocd (pureBlocks c 0 pairs).2.length
          (cdList (pureBlocks c 0 pairs).2).length (pureBlocks c 0 pairs).1.length := by
    unfold archiveBytes
    rw [hTrailer, ← List.append_assoc]
  have hFind := findEocd_finds
    ((pureBlocks c 0 pairs).1 ++ cdList (pureBlocks c 0 pairs).2)
    (pureBlocks c 0 pairs).2.length (cdList (pureBlocks c 0 pairs).2).length
    (pureBlocks c 0 pairs).1.length hNv hS hO
  have hf := classicEocd_fields (pureBlocks c 0 pairs).2.length
    (cdList (pureBlocks c 0 pairs).2).length (pureBlocks c 0 pairs).1.length
  have hsig : readU32At (((pureBlocks c 0 pairs).1 ++ cdList (pureBlocks c 0 pairs).2) ++
      classicEocd (pureBlocks c 0 pairs).2.length
        (cdList (pureBlocks c 0 pairs).2).length (pureBlocks c 0 pairs).1.length)
      ((pureBlocks c 0 pairs).1 ++ cdList (pureBlocks c 0 pairs).2).length =
      some 0x06054b50 := by
    rw [readU32At_peel _ _ 0 _ (by omega)]
    exact hf.1
  have hr8 : readU16At (((pureBlocks c 0 pairs).1 ++ cdList (pureBlocks c 0 pairs).2) ++
      classicEocd (pureBlocks c 0 pairs).2.length
        (cdList (pureBlocks c 0 pairs).2).length (pureBlocks c 0 pairs).1.length)
      (((pureBlocks c 0 pairs).1 ++ cdList (pureBlocks c 0 pairs).2).length + 8) =
      some (pureBlocks c 0 pairs).2.length := by
    rw [readU16At_peel _ _ 8 _ (by omega), hf.2.1, if_neg (by omega)]
  have hr10 : readU16At (((pureBlocks c 0 pairs).1 ++ cdList (pureBlocks c 0 pairs).2) ++
      classicEocd (pureBlocks c 0 pairs).2.length
        (cdList (pureBlocks c 0 pairs).2).length (pureBlocks c 0 pairs).1.length)
      (((pureBlocks c 0 pairs).1 ++ cdList (pureBlocks c 0 pairs).2).length + 10) =
      some (pureBlocks c 0 pairs).2.length := by
    rw [readU16At_peel _ _ 10 _ (by omega), hf.2.2.1, if_neg (by omega)]
  have hr12 : readU32At (((pureBlocks c 0 pairs).1 ++ cdList (pureBlocks c 0 pairs).2) ++
      classicEocd (pureBlocks c 0 pairs).2.length
        (cdList (pureBlocks c 0 pairs).2).length (pureBlocks c 0 pairs).1.length)
      (((pureBlocks c 0 pairs).1 ++ cdList (pureBlocks c 0 pairs).2).length + 12) =
      some (cdList (pureBlocks c 0 pairs).2).length := by
    rw [readU32At_peel _ _ 12 _ (by omega), hf.2.2.2.1, if_neg (by omega)]
  have hr16 : readU32At (((pureBlocks c 0 pairs).1 ++ cdList (pureBlocks c 0 pairs).2) ++
      classicEocd (pureBlocks c 0 pairs).2.length
        (cdList (pureBlocks c 0 pairs).2).length (pureBlocks c 0 pairs).1.length)
      (((pureBlocks c 0 pairs).1 ++ cdList (pureBlocks c 0 pairs).2).length + 16) =
      some (pureBlocks c 0 pairs).1.length := by
    rw [readU32At_peel _ _ 16 _ (by omega), hf.2.2.2.2, if_neg (by omega)]
  have hloop := parseCdLoop_metas (pureBlocks c 0 pairs).2 (pureBlocks c 0 pairs).1
    (classicEocd (pureBlocks c 0 pairs).2.length
      (cdList (pureBlocks c 0 pairs).2).length (pureBlocks c 0 pairs).1.length)
    (by
      intro m hm
      obtain ⟨p, hp, hmn, hmm, hmc, hmu, hlo, hhi⟩ :=
        pureBlocks_meta_fields c pairs 0 m hm
      refine ⟨by rw [hmn]; exact hname p hp, by omega, ?_, ?_, by omega⟩
      · rw [hmc]; exact hcomp p hp
      · rw [hmu]; exact hdata p hp)
  rw [hAeq]
  unfold openArchive
  rw [hFind]
  dsimp only
  rw [hsig]
  dsimp only
  rw [if_neg (by decide : ¬((0x06054b50 : Nat) ≠ 0x06054b50))]
  rw [hr8, hr10, hr12, hr16]
  dsimp only
  rw [if_neg (by push_neg; exact ⟨by omega, by omega, by omega⟩)]
  rw [List.append_assoc]
  exact hloop

end SZip
namespace SZip

theorem getD_map_spec (f : WEntry → RZipEntry) (d : WEntry) (l : List WEntry) :
    ∀ i, (l.map f).getD i (f d) = f (l.getD i d) := by
  induction l with
  | nil => intro i; rfl
  | cons a l ih =>
    intro i
    cases i with
    | zero => rfl
    | succ i => exact ih i

theorem getD_mem (l : List (List Nat × List Nat)) (i : Nat) (h : i < l.length) :
    l.getD i pairDefault ∈ l := by
  induction l generalizing i with
  | nil => simp at h
  | cons a l ih =>
    cases i with
    | zero => exact List.mem_cons_self a l
    | succ i => exact List.mem_cons_of_mem a (ih i (by simpa using h))

/-- C1 (amended): writing any finite sequence of `(name, bytes)` pairs with
an unencrypted DEFLATE writer (`start_entry` + `write_data` per pair, then
`finish`; the codec an arbitrary lossless compressor standing for DEFLATE)
and opening the produced archive yields one central-directory entry per
pair, in order; for every index the entry carries the original name and
byte count, `read_entry` returns exactly the original bytes, and the CRC
stored in the entry's data descriptor is the IEEE CRC-32 of the original
bytes.  The side conditions keep every field inside its classic slot: at
most 255 entries, names under 2^16, data and compressed sizes under
2^32 - 1, and a total archive under 2^24 bytes, which also makes the
backwards EOCD scan unambiguous. -/
theorem writeSequence_roundtrip (c : Codec) (hl : c.Lossless) (lvl : Nat)
    (pairs : List (List Nat × List Nat))
    (hcount : pairs.length ≤ 255)
    (hname : ∀ p ∈ pairs, p.1.length < 65536)
    (hdata : ∀ p ∈ pairs, p.2.length < 4294967295)
    (hbytes : ∀ p ∈ pairs, ∀ b ∈ p.2, b < 256)
    (hcomp : ∀ p ∈ pairs, (c.compress p.2).length < 4294967295)
    (harch : (archiveBytes c pairs).length < 16777216) :
    writeSequence c lvl pairs = .ok (archiveBytes c pairs) ∧
    openArchive (archiveBytes c pairs) =
      .ok ((pureBlocks c 0 pairs).2.map readerEntryOf) ∧
    ((pureBlocks c 0 pairs).2.map readerEntryOf).length = pairs.length ∧
    ∀ i, i < pairs.length →
      (((pureBlocks c 0 pairs).2.map readerEntryOf).getD i
          (readerEntryOf wDefault)).name = (pairs.getD i pairDefault).1 ∧
      (((pureBlocks c 0 pairs).2.map readerEntryOf).getD i
          (readerEntryOf wDefault)).uncompressedSize =
        (pairs.getD i pairDefault).2.length ∧
      readEntry c c (archiveBytes c pairs)
        (((pureBlocks c 0 pairs).2.map readerEntryOf).getD i
          (readerEntryOf wDefault)) = .ok (pairs.getD i pairDefault).2 ∧
      readU32At (archiveBytes c pairs)
        ((((pureBlocks c 0 pairs).2.map readerEntryOf).getD i
            (readerEntryOf wDefault)).offset + 30 +
          (pairs.getD i pairDefault).1.length +
          (((pureBlocks c 0 pairs).2.map readerEntryOf).getD i
            (readerEntryOf wDefault)).compressedSize + 4) =
        some (crc32 (pairs.getD i pairDefault).2) := by
  refine ⟨writeSequence_eq c lvl pairs,
    openArchive_run c pairs hcount hname hdata hcomp harch, ?_, ?_⟩
  · rw [List.length_map, pureBlocks_metas_length]
  · intro i hi
    have hp : pairs.getD i pairDefault ∈ pairs := getD_mem pairs i hi
    obtain ⟨B1, B2, hB, hM⟩ := pureBlocks_index c pairs 0 i hi
    have hmap := getD_map_spec readerEntryOf wDefault (pureBlocks c 0 pairs).2 i
    rw [hmap, hM]
    have hfile : archiveBytes c pairs =
        B1 ++ (entryBlock c (pairs.getD i pairDefault).1
          (pairs.getD i pairDefault).2 ++
          (B2 ++ (cdList (pureBlocks c 0 pairs).2 ++
            finishTrailer (pureBlocks c 0 pairs).2.length
              (cdList (pureBlocks c 0 pairs).2).length
              (pureBlocks c 0 pairs).1.length))) := by
      conv =>
        lhs
        rw [archiveBytes, hB]
      simp [List.append_assoc]
      rw [hB]
      simp [List.length_append]
    refine ⟨by simp [readerEntryOf, metaFor], by simp [readerEntryOf, metaFor],
      ?_, ?_⟩
    · rw [hfile]
      have hread := readEntry_spec c B1
        (B2 ++ (cdList (pureBlocks c 0 pairs).2 ++
          finishTrailer (pureBlocks c 0 pairs).2.length
            (cdList (pureBlocks c 0 pairs).2).length
            (pureBlocks c 0 pairs).1.length))
        (pairs.getD i pairDefault).1 (pairs.getD i pairDefault).2
        (hname _ hp)
      rw [hl] at hread
      have hent : readerEntryOf (metaFor c (0 + B1.length) (pairs.getD i pairDefault)) =
          { name := (pairs.getD i pairDefault).1,
            compressedSize := (c.compress (pairs.getD i pairDefault).2).length,
            uncompressedSize := (pairs.getD i pairDefault).2.length,
            compressionMethod := 8, offset := B1.length } := by
        simp [readerEntryOf, metaFor]
      rw [hent]
      exact hread
    · rw [hfile]
      have hcrc := entryBlock_crc_at c B1
        (B2 ++ (cdList (pureBlocks c 0 pairs).2 ++
          finishTrailer (pureBlocks c 0 pairs).2.length
            (cdList (pureBlocks c 0 pairs).2).length
            (pureBlocks c 0 pairs).1.length))
        (pairs.getD i pairDefault).1 (pairs.getD i pairDefault).2
        (crc32_lt _ (hbytes _ hp))
      have hoff : (readerEntryOf (metaFor c (0 + B1.length)
          (pairs.getD i pairDefault))).offset = B1.length := by
        simp [readerEntryOf, metaFor]
      have hcsz : (readerEntryOf (metaFor c (0 + B1.length)
          (pairs.getD i pairDefault))).compressedSize =
          (c.compress (pairs.getD i pairDefault).2).length := by
        simp [readerEntryOf, metaFor]
      rw [hoff, hcsz]
      exact hcrc

end SZip
namespace SZip

set_option maxRecDepth 4000000

/-- C1 counterexample: with encryption among the "valid options" the
round-trip fails.  Writing "hello" under "a.txt" with password "pw" (salt
oracle all zeros) produces an archive whose single entry reads back as 15
zero bytes, not "hello": the reader never decrypts (nor subtracts the
salt/verifier preamble the writer failed to count), so the original bytes
are not returned. -/
theorem encrypted_roundtrip_fails :
    openArchive encArchive = .ok [⟨encName, 15, 5, 8, 0⟩] ∧
    readEntry idCodec idCodec encArchive ⟨encName, 15, 5, 8, 0⟩ =
      .ok (List.replicate 15 0) ∧
    (List.replicate 15 0 : List Nat) ≠ encBody :=
  ⟨by decide, by decide, by decide⟩

/-- C1 witness: the amended round-trip theorem applied to the concrete
one-entry run writing bytes "hi" under name "a" with the identity codec. -/
theorem writeSequence_roundtrip_witness :
    openArchive (archiveBytes idCodec [([97], [104, 105])]) =
      .ok ((pureBlocks idCodec 0 [([97], [104, 105])]).2.map readerEntryOf) ∧
    readEntry idCodec idCodec (archiveBytes idCodec [([97], [104, 105])])
      (((pureBlocks idCodec 0 [([97], [104, 105])]).2.map readerEntryOf).getD 0
        (readerEntryOf wDefault)) = .ok [104, 105] :=
  ⟨(writeSequence_roundtrip idCodec idCodec_lossless 6 [([97], [104, 105])]
      (by decide) (by decide) (by decide) (by decide) (by decide) (by decide)).2.1,
   ((writeSequence_roundtrip idCodec idCodec_lossless 6 [([97], [104, 105])]
      (by decide) (by decide) (by decide) (by decide) (by decide)
      (by decide)).2.2.2 0 (by decide)).2.2.1⟩

end SZip
